import Mathlib

/-!
# Doc_ext: marksheet upload relay and presentation layer

A shallow embedding of `src/server.js` (the relay) and `src/public/script.js`
(the browser controller).  Browser globals (`selectedFile`, `extractedData`,
the DOM nodes that the functions write) become fields of an explicit state;
the relay's file system and outbound calls become fields of a world value.

Conventions of the embedding:

* JavaScript values are the values `JSON.parse` can produce, plus `undefined`.
  A finite number is given by the decimal `mantissa * 10 ^ exponent` that
  `Number::toString` prints for it, the shortest decimal that reads back as
  the number.  Rounding a decimal to a number is monotone and keeps the
  integers 40, 75 and `10 ^ 21` fixed, so the number compares with them as
  its decimal does.  The infinities, which `JSON.parse` returns for a
  number text beyond the range of numbers such as `1e999`, are values of
  their own; negative zero prints and tests as zero and is not told apart
  from it.
* Strings are sequences of Unicode scalar values.  Where the source indexes
  a string by UTF-16 code unit (`n[0]`, `substring`), the code units are
  computed, and the result is a list of code units.
* An object is the list of its own properties in enumeration order.
* A thrown exception is the `error` side of `Except`.
-/

namespace DocExt

/-! ## JavaScript values -/

/-- JavaScript values reachable from a parsed JSON payload.  The value
`num m e` is the finite number whose decimal is `m * 10 ^ e`, and
`infinity negative` is one of the two infinities. -/
inductive JsVal where
  | undefined : JsVal
  | null : JsVal
  | bool (b : Bool) : JsVal
  | num (mantissa : Int) (exponent : Int) : JsVal
  | infinity (negative : Bool) : JsVal
  | str (s : String) : JsVal
  | arr (xs : List JsVal) : JsVal
  | obj (props : List (String × JsVal)) : JsVal

mutual
/-- Structural equality test on values. -/
def JsVal.beq : JsVal → JsVal → Bool
  | .undefined, .undefined => true
  | .null, .null => true
  | .bool a, .bool b => a == b
  | .num a e, .num b f => a == b && e == f
  | .infinity a, .infinity b => a == b
  | .str a, .str b => a == b
  | .arr xs, .arr ys => JsVal.beqList xs ys
  | .obj ps, .obj qs => JsVal.beqProps ps qs
  | _, _ => false
/-- Structural equality test on lists of values. -/
def JsVal.beqList : List JsVal → List JsVal → Bool
  | [], [] => true
  | x :: xs, y :: ys => JsVal.beq x y && JsVal.beqList xs ys
  | _, _ => false
/-- Structural equality test on property lists. -/
def JsVal.beqProps : List (String × JsVal) → List (String × JsVal) → Bool
  | [], [] => true
  | (k, x) :: xs, (l, y) :: ys => k == l && JsVal.beq x y && JsVal.beqProps xs ys
  | _, _ => false
end

mutual
theorem JsVal.beq_iff : ∀ a b : JsVal, JsVal.beq a b = true ↔ a = b
  | .undefined, b => by cases b <;> simp [JsVal.beq]
  | .null, b => by cases b <;> simp [JsVal.beq]
  | .bool a, b => by cases b <;> simp [JsVal.beq]
  | .num a e, b => by cases b <;> simp [JsVal.beq]
  | .infinity a, b => by cases b <;> simp [JsVal.beq]
  | .str a, b => by cases b <;> simp [JsVal.beq]
  | .arr xs, b => by cases b <;> simp [JsVal.beq, JsVal.beqList_iff xs]
  | .obj ps, b => by cases b <;> simp [JsVal.beq, JsVal.beqProps_iff ps]
theorem JsVal.beqList_iff : ∀ xs ys : List JsVal, JsVal.beqList xs ys = true ↔ xs = ys
  | [], ys => by cases ys <;> simp [JsVal.beqList]
  | x :: xs, ys => by
    cases ys <;> simp [JsVal.beqList, JsVal.beq_iff x, JsVal.beqList_iff xs]
theorem JsVal.beqProps_iff :
    ∀ xs ys : List (String × JsVal), JsVal.beqProps xs ys = true ↔ xs = ys
  | [], ys => by cases ys <;> simp [JsVal.beqProps]
  | (k, x) :: xs, ys => by
    rcases ys with _ | ⟨⟨l, y⟩, ys⟩ <;>
      simp [JsVal.beqProps, JsVal.beq_iff x, JsVal.beqProps_iff xs, and_assoc]
end

instance : DecidableEq JsVal := fun a b => decidable_of_iff _ (JsVal.beq_iff a b)

deriving instance DecidableEq for Except

/-- An exception value: either a `TypeError` raised by the engine or an
`Error` constructed with a message. -/
inductive JsError where
  | typeError (what : String) : JsError
  | error (message : String) : JsError
  deriving DecidableEq, Repr

/-- The `message` property of an exception. -/
def JsError.message : JsError → String
  | .typeError what => what
  | .error m => m

/-- ToBoolean: `undefined`, `null`, `false`, `0` and the empty string are falsy. -/
def truthy : JsVal → Bool
  | .undefined => false
  | .null => false
  | .bool b => b
  | .num m _ => m != 0
  | .infinity _ => true
  | .str s => s != ""
  | .arr _ => true
  | .obj _ => true

/-- The operator `a || b` on already evaluated operands. -/
def jsOr (a b : JsVal) : JsVal := if truthy a then a else b

/-- Own property lookup in a property list. -/
def lookupProp (key : String) : List (String × JsVal) → JsVal
  | [] => .undefined
  | (k, v) :: rest => if k = key then v else lookupProp key rest

/-- Property read `v.key` for the keys the controller reads (`students`,
`data`, `name`, `roll_no`, `rollNo`, `id`, `marks`, `subjects`, `message`):
none of them is defined on the prototypes of arrays, strings, numbers or
booleans, and reading a property of `null` or `undefined` throws. -/
def getProp (v : JsVal) (key : String) : Except JsError JsVal :=
  match v with
  | .undefined => .error (.typeError ("Cannot read properties of undefined (reading " ++ key ++ ")"))
  | .null => .error (.typeError ("Cannot read properties of null (reading " ++ key ++ ")"))
  | .obj props => .ok (lookupProp key props)
  | _ => .ok .undefined

/-! ## Built-ins used by the controller: ToString, `parseInt`, `split` -/

/-- Remove the trailing zeros of the digits of a decimal, raising its
exponent: the digits that `Number::toString` prints have none. -/
def stripZeros : Nat → Nat → Int → Nat × Int
  | 0, s, e => (s, e)
  | fuel + 1, s, e =>
    if s ≠ 0 ∧ s % 10 = 0 then stripZeros fuel (s / 10) (e + 1) else (s, e)

/-- The exponent part of the exponent notation: the letter follows, then the
sign and the decimal digits of the exponent. -/
def exponentText (ex : Int) : List Char :=
  (if ex < 0 then '-' else '+') :: Nat.toDigits 10 ex.natAbs

/-- Number::toString for the positive decimal `s * 10 ^ e` whose digits `s`
have no trailing zero.  With `k` the number of digits and `n = k + e`: the
digits and `n - k` zeros when `k ≤ n ≤ 21`; the digits with a point after
the first `n` when `0 < n ≤ 21`; a zero, a point, `-n` zeros and the digits
when `-6 < n ≤ 0`; otherwise the exponent notation. -/
def decimalText (s : Nat) (e : Int) : List Char :=
  let ds := Nat.toDigits 10 s
  let k : Int := ds.length
  let n : Int := k + e
  if k ≤ n ∧ n ≤ 21 then ds ++ List.replicate e.toNat '0'
  else if 0 < n ∧ n ≤ 21 then ds.take n.toNat ++ '.' :: ds.drop n.toNat
  else if -6 < n ∧ n ≤ 0 then '0' :: '.' :: (List.replicate (-n).toNat '0' ++ ds)
  else
    match ds with
    | [] => []
    | [d] => d :: 'e' :: exponentText (n - 1)
    | d :: rest => d :: '.' :: (rest ++ 'e' :: exponentText (n - 1))

/-- Number::toString for the number whose decimal is `m * 10 ^ e`: `0` for
zero, and a minus sign before the text of the magnitude for a negative
number. -/
def numberToString (m e : Int) : String :=
  if m = 0 then "0"
  else
    let c := stripZeros m.natAbs m.natAbs e
    String.mk (if m < 0 then '-' :: decimalText c.1 c.2 else decimalText c.1 c.2)

/-- The value of the number whose decimal is `m * 10 ^ e`. -/
def numberValue (m e : Int) : ℚ := (m : ℚ) * (10 : ℚ) ^ e

/-- Whether a property list has an own property of the given name. -/
def hasOwn (key : String) : List (String × JsVal) → Bool
  | [] => false
  | (k, _) :: rest => k = key || hasOwn key rest

mutual
/-- ToString.  An object parsed from JSON prints as `[object Object]` through
`Object.prototype.toString`, unless an own `toString` property (never
callable, since it is JSON data) shadows it, in which case the conversion
throws a `TypeError`.  An array prints as `join(",")`. -/
def toStringJs : JsVal → Except JsError String
  | .undefined => .ok "undefined"
  | .null => .ok "null"
  | .bool b => .ok (if b then "true" else "false")
  | .num m e => .ok (numberToString m e)
  | .infinity negative => .ok (if negative then "-Infinity" else "Infinity")
  | .str s => .ok s
  | .arr xs => (fun parts => String.intercalate "," parts) <$> elementTexts xs
  | .obj props =>
    if hasOwn "toString" props then
      .error (.typeError "Cannot convert object to primitive value")
    else .ok "[object Object]"
/-- The texts `Array.prototype.join` concatenates: the empty string for
`undefined` and `null`, ToString of the element otherwise. -/
def elementTexts : List JsVal → Except JsError (List String)
  | [] => .ok []
  | .undefined :: rest => (fun ts => "" :: ts) <$> elementTexts rest
  | .null :: rest => (fun ts => "" :: ts) <$> elementTexts rest
  | x :: rest =>
    match toStringJs x with
    | .error e => .error e
    | .ok t => (fun ts => t :: ts) <$> elementTexts rest
end

/-- StrWhiteSpaceChar: the WhiteSpace and LineTerminator code points that
`parseInt` skips at the start of its input. -/
def isJsWhiteSpace (c : Char) : Bool :=
  let n := c.toNat
  n = 0x09 || n = 0x0A || n = 0x0B || n = 0x0C || n = 0x0D || n = 0x20 || n = 0xA0 ||
  n = 0x1680 || (0x2000 ≤ n && n ≤ 0x200A) || n = 0x2028 || n = 0x2029 ||
  n = 0x202F || n = 0x205F || n = 0x3000 || n = 0xFEFF

/-- Skip leading white space. -/
def trimStart : List Char → List Char
  | [] => []
  | c :: rest => if isJsWhiteSpace c then trimStart rest else c :: rest

/-- The optional sign of `parseInt`: whether it is a minus, and the rest. -/
def stripSign : List Char → Bool × List Char
  | [] => (false, [])
  | c :: rest =>
    if c = '-' then (true, rest) else if c = '+' then (false, rest) else (false, c :: rest)

/-- With no radix argument, a leading `0x` or `0X` selects radix 16 and is
removed; otherwise the radix is 10. -/
def stripHex : List Char → Nat × List Char
  | c :: d :: rest =>
    if c = '0' ∧ (d = 'x' ∨ d = 'X') then (16, rest) else (10, c :: d :: rest)
  | s => (10, s)

/-- The value of a character as a digit of the given radix, if it is one. -/
def radixDigit (radix : Nat) (c : Char) : Option Nat :=
  let n := c.toNat
  let v : Option Nat :=
    if 48 ≤ n ∧ n ≤ 57 then some (n - 48)
    else if 97 ≤ n ∧ n ≤ 122 then some (n - 87)
    else if 65 ≤ n ∧ n ≤ 90 then some (n - 55)
    else none
  match v with
  | some d => if d < radix then some d else none
  | none => none

/-- The longest leading run of digits of the radix, as digit values. -/
def takeDigits (radix : Nat) : List Char → List Nat
  | [] => []
  | c :: rest =>
    match radixDigit radix c with
    | some d => d :: takeDigits radix rest
    | none => []

/-- The number a digit sequence denotes, most significant digit first. -/
def digitsValue (radix : Nat) (ds : List Nat) : Nat :=
  ds.foldl (fun acc d => acc * radix + d) 0

/-- The call `parseInt(text)` with no radix; `none` stands for `NaN`. -/
def parseIntJs (text : List Char) : Option Int :=
  let signed := stripSign (trimStart text)
  let body := stripHex signed.2
  let ds := takeDigits body.1 body.2
  if ds.isEmpty then none
  else
    let v : Int := digitsValue body.1 ds
    some (if signed.1 then -v else v)

/-- The call `s.split(sep)` for a one-character separator. -/
def splitOnChar (sep : Char) : List Char → List (List Char)
  | [] => [[]]
  | c :: rest =>
    if c = sep then [] :: splitOnChar sep rest
    else
      match splitOnChar sep rest with
      | [] => [[c]]
      | w :: ws => (c :: w) :: ws

/-! ## The browser controller, `src/public/script.js` -/

/-- A `File` object as the controller reads it. -/
structure File where
  name : String
  type : String
  size : Nat
  deriving DecidableEq, Repr

/-- One call of `showToast(message, type)`. -/
structure Toast where
  message : String
  type : String
  deriving DecidableEq, Repr

/-- What `previewImage.src` was set to. -/
inductive Preview where
  | none : Preview
  | dataUrlOf (f : File) : Preview
  | documentGlyph : Preview
  deriving DecidableEq, Repr

/-- The MIME types of `allowedTypes` in `handleFile`. -/
def clientAllowedTypes : List String :=
  ["image/jpeg", "image/png", "image/webp", "application/pdf"]

/-- The size bound of `handleFile`, `10 * 1024 * 1024`. -/
def clientMaxSize : Nat := 10 * 1024 * 1024

/-! ### Card rendering: `createStudentCard` -/

/-- One `mark-row` of the markup of a card: the subject, the colour class of
the value and the text interpolated for the value, not escaped. -/
structure MarkRow where
  subject : String
  colorClass : String
  valueText : String
  deriving DecidableEq, Repr

/-- The content of a card's `marks-table`: the rows, or the placeholder
paragraph `No marks data` that replaces an empty `marksHTML`. -/
inductive MarksTable where
  | noMarksData : MarksTable
  | rows (rs : List MarkRow) : MarksTable
  deriving DecidableEq, Repr

/-- The strings that `createStudentCard` interpolates into the markup it
assigns to `card.innerHTML`, as they are before the HTML parser reads them:
none of them is escaped.  The initials are UTF-16 code units. -/
structure Card where
  initials : List Nat
  name : String
  rollNo : String
  marks : MarksTable
  deriving DecidableEq, Repr

/-- The colour class chosen from `numValue`. -/
def colorClassOf (numValue : Int) : String :=
  if numValue ≥ 75 then "high" else if numValue < 40 then "low" else "medium"

/-- The body of the loop over `Object.entries(marks)`: `parseInt(value) || 0`
picks the class, and the value itself is interpolated as text. -/
def markRow (subject : String) (value : JsVal) : Except JsError MarkRow :=
  match toStringJs value with
  | .error e => .error e
  | .ok text =>
    let numValue : Int := (parseIntJs text.data).getD 0
    .ok { subject := subject, colorClass := colorClassOf numValue, valueText := text }

/-- The loop over the entries, in order. -/
def markRows : List (String × JsVal) → Except JsError (List MarkRow)
  | [] => .ok []
  | (subject, value) :: rest =>
    match markRow subject value with
    | .error e => .error e
    | .ok r =>
      match markRows rest with
      | .error e => .error e
      | .ok rs => .ok (r :: rs)

/-- The entries of an array from index `i` on: index text and element. -/
def arrayEntries : Nat → List JsVal → List (String × JsVal)
  | _, [] => []
  | i, x :: rest => (Nat.repr i, x) :: arrayEntries (i + 1) rest

/-- The call `Object.entries(marks)` guarded by `typeof marks === 'object'`:
objects and arrays have entries, any other value skips the loop. -/
def marksEntries : JsVal → List (String × JsVal)
  | .obj props => props
  | .arr xs => arrayEntries 0 xs
  | _ => []

/-- The first UTF-16 code unit of a character: its code in the Basic
Multilingual Plane, and the high surrogate of its pair outside it. -/
def firstCodeUnit (c : Char) : Nat :=
  if c.toNat < 0x10000 then c.toNat else 0xD800 + (c.toNat - 0x10000) / 0x400

/-- The expression `n[0]` joined with the empty separator: the first code
unit of a word, nothing for an empty word. -/
def firstUnit : List Char → List Nat
  | [] => []
  | c :: _ => [firstCodeUnit c]

/-- The expression `name.split(' ').map(n => n[0]).join('').substring(0, 2)`,
as code units. -/
def initialsOf (name : String) : List Nat :=
  (((splitOnChar ' ' name.data).map firstUnit).flatten).take 2

/-- The function `createStudentCard(student, index)`.  The built-in
`toUpperCase` is a parameter, on strings given as code units. -/
def createStudentCard (toUpperCase : List Nat → List Nat) (student : JsVal) (index : Nat) :
    Except JsError Card := do
  let nameField ← getProp student "name"
  let nameVal := jsOr nameField (.str ("Student " ++ Nat.repr (index + 1)))
  let rollField ← getProp student "roll_no"
  let rollNoField ← getProp student "rollNo"
  let idField ← getProp student "id"
  let rollNo := jsOr rollField (jsOr rollNoField (jsOr idField (.str "N/A")))
  let name ← match nameVal with
    | .str s => Except.ok s
    | _ => Except.error (JsError.typeError "name.split is not a function")
  let initials := toUpperCase (initialsOf name)
  let marksField ← getProp student "marks"
  let subjectsField ← getProp student "subjects"
  let marks := jsOr marksField (jsOr subjectsField (.obj []))
  let rows ← markRows (marksEntries marks)
  let rollText ← toStringJs rollNo
  return { initials := initials, name := name, rollNo := rollText,
           marks := if rows.isEmpty then .noMarksData else .rows rows }

/-! ### Result rendering: `displayResults` -/

/-- The content of `studentsGrid`. -/
inductive Grid where
  | noStudentData : Grid
  | cards (cs : List Card) : Grid
  deriving DecidableEq, Repr

/-- What `displayResults` leaves on the page when it returns: the grid and
the value whose `JSON.stringify(data, null, 2)` text fills `jsonOutput`. -/
structure Display where
  grid : Grid
  jsonOutput : JsVal
  deriving DecidableEq

/-- The expression
`data.students || data.data?.students || (Array.isArray(data) ? data : [data])`. -/
def studentsOf (data : JsVal) : Except JsError JsVal :=
  match getProp data "students" with
  | .error e => .error e
  | .ok top =>
    if truthy top then .ok top
    else
      match getProp data "data" with
      | .error e => .error e
      | .ok inner =>
        let nested : Except JsError JsVal :=
          match inner with
          | .undefined => .ok .undefined
          | .null => .ok .undefined
          | d => getProp d "students"
        match nested with
        | .error e => .error e
        | .ok n =>
          if truthy n then .ok n
          else
            match data with
            | .arr _ => .ok data
            | _ => .ok (.arr [data])

/-- The test `students.length === 0`. -/
def lengthIsZero : JsVal → Bool
  | .arr xs => xs.isEmpty
  | .str s => s.data.isEmpty
  | .obj props =>
    match lookupProp "length" props with
    | .num m _ => m == 0
    | _ => false
  | _ => false

/-- The loop `students.forEach((student, index) => ...)` from index `i`. -/
def renderCards (toUpperCase : List Nat → List Nat) : Nat → List JsVal → Except JsError (List Card)
  | _, [] => .ok []
  | i, s :: rest =>
    match createStudentCard toUpperCase s i with
    | .error e => .error e
    | .ok c =>
      match renderCards toUpperCase (i + 1) rest with
      | .error e => .error e
      | .ok cs => .ok (c :: cs)

/-- The function `displayResults(data)`.  A thrown exception leaves the page
partly updated; the embedding records the page only for a normal return. -/
def displayResults (toUpperCase : List Nat → List Nat) (data : JsVal) : Except JsError Display :=
  match studentsOf data with
  | .error e => .error e
  | .ok students =>
    if (!truthy students) || lengthIsZero students then
      .ok { grid := .noStudentData, jsonOutput := data }
    else
      match students with
      | .arr xs =>
        match renderCards toUpperCase 0 xs with
        | .error e => .error e
        | .ok cs => .ok { grid := .cards cs, jsonOutput := data }
      | _ => .error (.typeError "students.forEach is not a function")

/-! ### Page state and the event handlers -/

/-- The globals and DOM properties the handlers read and write, with a
record of the effects that leave the page. -/
structure Ui where
  /-- The global `selectedFile`; `none` is `null`. -/
  selectedFile : Option File
  /-- The global `extractedData`, initially `null`. -/
  extractedData : JsVal
  /-- The property `extractBtn.disabled`. -/
  extractDisabled : Bool
  /-- Whether the button shows its loader instead of its text. -/
  loading : Bool
  /-- The text of `fileName`. -/
  fileNameText : String
  /-- The source of `previewImage`. -/
  preview : Preview
  /-- Whether `uploadArea` is displayed. -/
  uploadAreaShown : Bool
  /-- Whether `filePreview` is displayed. -/
  filePreviewShown : Bool
  /-- The results section as the last completed `displayResults` left it. -/
  display : Option Display
  /-- Every `showToast` call so far, oldest first. -/
  toasts : List Toast
  /-- Every `fetch('/api/extract')` issued so far, oldest first. -/
  requests : List File
  /-- The number of issued requests whose response is still awaited. -/
  inFlight : Nat
  /-- Every value handed to `navigator.clipboard.writeText`, oldest first. -/
  clipboardWrites : List JsVal
  /-- Every value offered as a download, oldest first. -/
  downloads : List JsVal
  deriving DecidableEq

/-- The page as loaded: `selectedFile` and `extractedData` are `null`, and the
controls are as `clearFile` leaves them, the upload area shown and the
extract button disabled. -/
def Ui.initial : Ui :=
  { selectedFile := none, extractedData := .null, extractDisabled := true, loading := false,
    fileNameText := "", preview := .none, uploadAreaShown := true, filePreviewShown := false,
    display := none, toasts := [], requests := [], inFlight := 0,
    clipboardWrites := [], downloads := [] }

/-- The function `showToast(message, type)`. -/
def showToast (st : Ui) (message type : String) : Ui :=
  { st with toasts := st.toasts ++ [{ message := message, type := type }] }

/-- The function `handleFile(file)`. -/
def handleFile (st : Ui) (file : File) : Ui :=
  if ¬ clientAllowedTypes.contains file.type then
    showToast st "Invalid file type. Please upload an image or PDF." "error"
  else if file.size > clientMaxSize then
    showToast st "File too large. Maximum size is 10MB." "error"
  else
    { st with
      selectedFile := some file
      fileNameText := file.name
      preview := if "image/".data.isPrefixOf file.type.data then .dataUrlOf file
                 else .documentGlyph
      uploadAreaShown := false
      filePreviewShown := true
      extractDisabled := false }

/-- The function `clearFile()`.  Resetting `fileInput.value` has no effect on
the modelled state. -/
def clearFile (st : Ui) : Ui :=
  { st with selectedFile := none, uploadAreaShown := true, filePreviewShown := false,
            extractDisabled := true }

/-- How the awaited `fetch('/api/extract')` and `response.json()` settle:
the call rejects, or a response arrives with its `ok` flag and the outcome of
reading its body as JSON. -/
inductive FetchOutcome where
  | rejected (error : JsError) : FetchOutcome
  | response (ok : Bool) (json : Except JsError JsVal) : FetchOutcome

/-- The part of `extractData()` that runs up to the first `await`: return at
once when no file is selected, otherwise show the loader, disable the button
and issue the request. -/
def extractStart (st : Ui) : Ui :=
  match st.selectedFile with
  | none => st
  | some file =>
    { st with loading := true, extractDisabled := true,
              requests := st.requests ++ [file], inFlight := st.inFlight + 1 }

/-- The body of the `try` block of `extractData()` after the request has
settled. -/
def extractTry (toUpperCase : List Nat → List Nat) (st : Ui) (outcome : FetchOutcome) :
    Except JsError Ui × Ui :=
  match outcome with
  | .rejected e => (.error e, st)
  | .response ok json =>
    match json with
    | .error e => (.error e, st)
    | .ok result =>
      if ¬ ok then
        match getProp result "message" with
        | .error e => (.error e, st)
        | .ok m =>
          match toStringJs (jsOr m (.str "Extraction failed")) with
          | .error e => (.error e, st)
          | .ok text => (.error (.error text), st)
      else
        match getProp result "data" with
        | .error e => (.error e, st)
        | .ok data =>
          let st1 := { st with extractedData := data }
          match displayResults toUpperCase data with
          | .error e => (.error e, st1)
          | .ok d =>
            let st2 := { st1 with display := some d }
            (.ok (showToast st2 "Data extracted successfully!" "success"), st2)

/-- The continuation of `extractData()` once its request has settled: the
`try` body, the `catch` clause and the `finally` clause. -/
def extractSettle (toUpperCase : List Nat → List Nat) (st : Ui) (outcome : FetchOutcome) : Ui :=
  let afterTry : Ui :=
    match extractTry toUpperCase st outcome with
    | (.ok st1, _) => st1
    | (.error e, st1) =>
      showToast st1 (if e.message = "" then "Failed to extract data" else e.message) "error"
  { afterTry with loading := false, extractDisabled := false, inFlight := afterTry.inFlight - 1 }

/-- The function `extractData()` run from the click to the end of its
continuation with no other event in between. -/
def extractData (toUpperCase : List Nat → List Nat) (st : Ui) (outcome : FetchOutcome) : Ui :=
  match st.selectedFile with
  | none => st
  | some _ => extractSettle toUpperCase (extractStart st) outcome

/-- The function `copyToClipboard()`; the flag says whether the clipboard
write is fulfilled. -/
def copyToClipboard (st : Ui) (writeFulfilled : Bool) : Ui :=
  if ¬ truthy st.extractedData then st
  else
    let st1 := { st with clipboardWrites := st.clipboardWrites ++ [st.extractedData] }
    if writeFulfilled then showToast st1 "Copied to clipboard!" "success"
    else showToast st1 "Failed to copy" "error"

/-- The function `downloadJSON()`. -/
def downloadJSON (st : Ui) : Ui :=
  if ¬ truthy st.extractedData then st
  else
    showToast { st with downloads := st.downloads ++ [st.extractedData] }
      "Download started!" "success"

/-- The events of the page: a file is chosen or dropped on the upload area,
the remove control is clicked, the extract button is clicked, and an awaited
request settles. -/
inductive Event where
  | select (file : File) : Event
  | clear : Event
  | extract : Event
  | settle (outcome : FetchOutcome) : Event

/-- One step of the page.  The listeners of the source are attached to
`uploadArea`/`fileInput` (selection), `removeFile` (clear) and `extractBtn`
(extract).  The upload area takes a selection only while it is displayed,
the remove control belongs to the file preview and is clicked only while
that is displayed, and a disabled button dispatches no click. -/
def step (toUpperCase : List Nat → List Nat) (st : Ui) : Event → Ui
  | .select file => if st.uploadAreaShown then handleFile st file else st
  | .clear => if st.filePreviewShown then clearFile st else st
  | .extract => if st.extractDisabled then st else extractStart st
  | .settle outcome => if st.inFlight = 0 then st else extractSettle toUpperCase st outcome

/-- Run a sequence of events from a state. -/
def run (toUpperCase : List Nat → List Nat) (st : Ui) (events : List Event) : Ui :=
  events.foldl (step toUpperCase) st

/-! ## The relay, `src/server.js` -/

/-- The file part of a multipart request as `multer` sees it. -/
structure Upload where
  fieldname : String
  originalname : String
  mimetype : String
  size : Nat
  deriving DecidableEq, Repr

/-- The object `req.file` that `multer` hands to the route handler. -/
structure ReqFile where
  path : String
  originalname : String
  mimetype : String
  size : Nat
  deriving DecidableEq, Repr

/-- What the relay can change outside the response: the files present in the
upload directory and the calls made to the webhook (each the forwarded
file), oldest first. -/
structure World where
  files : List String
  webhookCalls : List ReqFile
  deriving DecidableEq, Repr

/-- An HTTP response of the relay: status and the value sent as body. -/
structure Res where
  status : Nat
  body : JsVal
  deriving DecidableEq

/-- The MIME types of `allowedTypes` in the `fileFilter` of `upload`. -/
def serverAllowedTypes : List String :=
  ["image/jpeg", "image/png", "image/webp", "application/pdf"]

/-- The option `limits.fileSize` of `upload`, `10 * 1024 * 1024`. -/
def fileSizeLimit : Nat := 10 * 1024 * 1024

/-- The `fileFilter` callback of `upload`: `cb(null, true)` is `ok`, and
`cb(new Error(...))` is `error`. -/
def fileFilter (file : Upload) : Except JsError Unit :=
  if serverAllowedTypes.contains file.mimetype then .ok ()
  else .error (.error "Invalid file type. Only JPEG, PNG, WebP, and PDF are allowed.")

/-- The middleware `upload.single('marksheet')` as the `multer` library
documents it: a file part under another field name is refused, then the
`fileFilter` callback decides, then the part is streamed to the storage and
refused when it is longer than `limits.fileSize` (what was written of it is
removed); an accepted file is kept at the path the storage chose.  A
request without a file part passes with `req.file` undefined. -/
def uploadSingle (w : World) (storedPath : String) (part : Option Upload) :
    Except JsError (Option ReqFile) × World :=
  match part with
  | none => (.ok none, w)
  | some u =>
    if u.fieldname ≠ "marksheet" then (.error (.error "Unexpected field"), w)
    else
      match fileFilter u with
      | .error e => (.error e, w)
      | .ok () =>
        if u.size > fileSizeLimit then (.error (.error "File too large"), w)
        else
          (.ok (some { path := storedPath, originalname := u.originalname,
                       mimetype := u.mimetype, size := u.size }),
           { w with files := storedPath :: w.files })

/-- How the awaited `fetch(N8N_WEBHOOK_URL, ...)` and `response.text()`
settle: the call rejects (a network-level failure), or a response arrives
with its status and the outcome of reading its body as text. -/
inductive WebhookOutcome where
  | rejected (error : JsError) : WebhookOutcome
  | response (status : Nat) (text : Except JsError String) : WebhookOutcome

/-- The property `response.ok`: a status in the range 200 to 299. -/
def responseOk (status : Nat) : Bool := 200 ≤ status && status ≤ 299

/-- The call `fs.unlinkSync(path)`: removes the file, and throws when there is
no such file. -/
def unlinkSync (files : List String) (path : String) : Except JsError (List String) :=
  if files.contains path then .ok (files.filter (fun p => p != path))
  else .error (.error ("ENOENT: no such file or directory, unlink " ++ path))

/-- The response of the `catch` clause of the handler. -/
def serverError (e : JsError) : Res :=
  { status := 500, body := .obj [("error", .str "Server error"), ("message", .str e.message)] }

/-- The handler of `POST /api/extract`, run after the upload middleware.
The built-in `JSON.parse` is a parameter (`none` when it throws). -/
def extractHandler (parse : String → Option JsVal) (w : World) (file : Option ReqFile)
    (webhook : WebhookOutcome) : Res × World :=
  match file with
  | none => ({ status := 400, body := .obj [("error", .str "No file uploaded")] }, w)
  | some f =>
    let w1 := { w with webhookCalls := w.webhookCalls ++ [f] }
    match webhook with
    | .rejected e => (serverError e, w1)
    | .response status text =>
      match unlinkSync w1.files f.path with
      | .error e => (serverError e, w1)
      | .ok remaining =>
        let w2 := { w1 with files := remaining }
        match text with
        | .error e => (serverError e, w2)
        | .ok responseText =>
          if ¬ responseOk status then
            ({ status := 500,
               body := .obj [("error", .str "Failed to process marksheet"),
                             ("details", .str responseText)] }, w2)
          else
            let result : JsVal :=
              match parse responseText with
              | some v => v
              | none => .obj [("raw", .str responseText)]
            ({ status := 200, body := .obj [("success", .bool true), ("data", result)] }, w2)

/-- The default error handler of Express, reached when a middleware passes
an error on: status 500 and an error page carrying the message. -/
def defaultErrorHandler (e : JsError) : Res :=
  { status := 500, body := .str e.message }

/-- The route `app.post('/api/extract', upload.single('marksheet'), handler)`:
the handler runs only when the middleware passes no error on. -/
def postExtract (parse : String → Option JsVal) (w : World) (storedPath : String)
    (part : Option Upload) (webhook : WebhookOutcome) : Res × World :=
  match uploadSingle w storedPath part with
  | (.error e, w1) => (defaultErrorHandler e, w1)
  | (.ok file, w1) => extractHandler parse w1 file webhook


/-! ## Concrete instances used to evaluate the embedding -/

/-- An instance of `toUpperCase` for ASCII text, on code units. -/
def asciiUpperCase (units : List Nat) : List Nat :=
  units.map (fun u => if 97 ≤ u ∧ u ≤ 122 then u - 32 else u)

/-- An instance of `JSON.parse` that recognises the literals `null`, `true`
and `false` and rejects any other text. -/
def parseLiteral (s : String) : Option JsVal :=
  if s = "null" then some .null
  else if s = "true" then some (.bool true)
  else if s = "false" then some (.bool false)
  else none

/-- An upload the relay accepts. -/
def sampleUpload : Upload :=
  { fieldname := "marksheet", originalname := "marks.png", mimetype := "image/png", size := 2048 }

/-- A relay world with an empty upload directory and no call made. -/
def emptyWorld : World := { files := [], webhookCalls := [] }

/-! ## The derivations as the claims word them -/

/-- The characters that start a word of a text: a character that is not a
space and stands first or right after a space.  The flag says whether the
next character would start a word. -/
def wordStarts : Bool → List Char → List Char
  | _, [] => []
  | atStart, c :: rest =>
    if c = ' ' then wordStarts true rest
    else if atStart then c :: wordStarts false rest
    else wordStarts false rest

/-- The initials as the claim words them: the first code units of the first
two non-empty space-separated words of the name. -/
def specInitials (name : String) : List Nat :=
  ((wordStarts true name.data).take 2).map firstCodeUnit

/-- The value of a field of an object when that value is a list. -/
def listField (v : JsVal) (key : String) : Option (List JsVal) :=
  match v with
  | .obj props =>
    match lookupProp key props with
    | .arr xs => some xs
    | _ => none
  | _ => none

/-- The derived student list as the amended claim words it: the top-level
`students` list when present; otherwise the `students` list nested under
`data` when present; otherwise the payload itself when it is an array, and
the payload as a single-element list when it is not. -/
def specStudentList (data : JsVal) : List JsVal :=
  match listField data "students" with
  | some xs => xs
  | none =>
    match data with
    | .obj props =>
      match listField (lookupProp "data" props) "students" with
      | some xs => xs
      | none => [data]
    | .arr xs => xs
    | v => [v]

/-! ## Upload validation -/

theorem toasts_append_ne (ts : List Toast) (t : Toast) : ts ++ [t] ≠ ts := by
  intro h
  have := congrArg List.length h
  simp at this

theorem clientAllowed_iff (t : String) :
    clientAllowedTypes.contains t = true ↔
      (t = "image/jpeg" ∨ t = "image/png" ∨ t = "image/webp" ∨ t = "application/pdf") := by
  simp [clientAllowedTypes]

theorem serverAllowed_iff (t : String) :
    serverAllowedTypes.contains t = true ↔
      (t = "image/jpeg" ∨ t = "image/png" ∨ t = "image/webp" ∨ t = "application/pdf") := by
  simp [serverAllowedTypes]

/-- C1: `handleFile` accepts a file (stores it as the selected file and
enables the extract action, with no notification) exactly when its MIME type
is one of the four allowed types and its size is at most `10 * 1024 * 1024`;
otherwise the selected file and the enabled state of the extract action are
unchanged, no request is issued, and the notification is the invalid-type
one for a disallowed type (whatever the size) and the too-large one for an
allowed type with a larger size. -/
theorem handleFile_accepts_iff (st : Ui) (file : File) :
    let allowed := file.type = "image/jpeg" ∨ file.type = "image/png" ∨
      file.type = "image/webp" ∨ file.type = "application/pdf"
    let st1 := handleFile st file
    ((allowed ∧ file.size ≤ 10 * 1024 * 1024) →
        st1.selectedFile = some file ∧ st1.extractDisabled = false ∧
        st1.toasts = st.toasts ∧ st1.requests = st.requests ∧ st1.inFlight = st.inFlight) ∧
    (¬ allowed →
        st1 = { st with toasts := st.toasts ++
          [{ message := "Invalid file type. Please upload an image or PDF.", type := "error" }] }) ∧
    ((allowed ∧ file.size > 10 * 1024 * 1024) →
        st1 = { st with toasts := st.toasts ++
          [{ message := "File too large. Maximum size is 10MB.", type := "error" }] }) ∧
    (st1.toasts = st.toasts ↔ (allowed ∧ file.size ≤ 10 * 1024 * 1024)) := by
  intro allowed st1
  have hA : clientAllowedTypes.contains file.type = true ↔ allowed := clientAllowed_iff file.type
  by_cases ha : allowed
  · have hc : clientAllowedTypes.contains file.type = true := hA.mpr ha
    by_cases hs : file.size ≤ 10 * 1024 * 1024
    · have hs2 : ¬ file.size > clientMaxSize := by simp only [clientMaxSize]; omega
      have e : st1 = { st with
          selectedFile := some file
          fileNameText := file.name
          preview := if "image/".data.isPrefixOf file.type.data then .dataUrlOf file
                     else .documentGlyph
          uploadAreaShown := false
          filePreviewShown := true
          extractDisabled := false } := by
        simp only [st1, handleFile, hc, hs2, not_true_eq_false, if_false]
      refine ⟨fun _ => ?_, fun h => absurd ha h, fun h => absurd hs (by omega), ?_⟩
      · rw [e]; exact ⟨rfl, rfl, rfl, rfl, rfl⟩
      · rw [e]; exact ⟨fun _ => ⟨ha, hs⟩, fun _ => rfl⟩
    · have hs2 : file.size > clientMaxSize := by simp only [clientMaxSize]; omega
      have e : st1 = showToast st "File too large. Maximum size is 10MB." "error" := by
        simp only [st1, handleFile, hc, hs2, not_true_eq_false, if_false, if_true]
      refine ⟨fun h => absurd h.2 hs, fun h => absurd ha h, fun _ => ?_, ?_⟩
      · rw [e]; rfl
      · rw [e]
        exact ⟨fun h => absurd h (toasts_append_ne _ _), fun h => absurd h.2 hs⟩
  · have hc : clientAllowedTypes.contains file.type = false := by
      cases h : clientAllowedTypes.contains file.type
      · rfl
      · exact absurd (hA.mp h) ha
    have e : st1 = showToast st "Invalid file type. Please upload an image or PDF." "error" := by
      simp only [st1, handleFile, hc, Bool.false_eq_true, not_false_eq_true, if_true]
    refine ⟨fun h => absurd h.1 ha, fun _ => ?_, fun h => absurd h.1 ha, ?_⟩
    · rw [e]; rfl
    · rw [e]
      exact ⟨fun h => absurd h (toasts_append_ne _ _), fun h => absurd h.1 ha⟩

/-- Witness for C1: a PNG of 100 bytes is accepted from the initial page. -/
theorem handleFile_accepts_iff_witness :
    (handleFile Ui.initial ⟨"a.png", "image/png", 100⟩).selectedFile
        = some ⟨"a.png", "image/png", 100⟩ ∧
      (handleFile Ui.initial ⟨"a.png", "image/png", 100⟩).extractDisabled = false :=
  let h := (handleFile_accepts_iff Ui.initial ⟨"a.png", "image/png", 100⟩).1
    ⟨by decide, by decide⟩
  ⟨h.1, h.2.1⟩

/-! ## The relay route -/

theorem fileFilter_ok_iff (u : Upload) :
    fileFilter u = .ok () ↔ serverAllowedTypes.contains u.mimetype = true := by
  unfold fileFilter
  split <;> simp_all

theorem uploadSingle_accepts (w : World) (storedPath : String) (u : Upload)
    (hfield : u.fieldname = "marksheet")
    (htype : serverAllowedTypes.contains u.mimetype = true)
    (hsize : u.size ≤ fileSizeLimit) :
    uploadSingle w storedPath (some u) =
      (.ok (some { path := storedPath, originalname := u.originalname,
                   mimetype := u.mimetype, size := u.size }),
       { w with files := storedPath :: w.files }) := by
  have hs : ¬ u.size > fileSizeLimit := by omega
  have hm : u.mimetype ∈ serverAllowedTypes := by simpa using htype
  simp [uploadSingle, hfield, fileFilter, hm, hs]

theorem uploadSingle_rejects (w : World) (storedPath : String) (u : Upload)
    (h : serverAllowedTypes.contains u.mimetype = false ∨ u.size > fileSizeLimit) :
    ∃ e, uploadSingle w storedPath (some u) = (.error e, w) := by
  unfold uploadSingle
  by_cases hfield : u.fieldname = "marksheet"
  · cases htype : serverAllowedTypes.contains u.mimetype
    · have hm : u.mimetype ∉ serverAllowedTypes := by simpa using htype
      simp [hfield, fileFilter, hm]
    · have hm : u.mimetype ∈ serverAllowedTypes := by simpa using htype
      rcases h with h | h
      · rw [htype] at h; cases h
      · simp [hfield, fileFilter, hm, h]
  · simp [hfield]

theorem unlinkSync_stored (files : List String) (path : String) :
    unlinkSync (path :: files) path = .ok (files.filter (fun p => p != path)) := by
  simp [unlinkSync]

/-- C2: an upload whose declared MIME type is not one of the four allowed
types, or whose size exceeds `10 * 1024 * 1024` bytes, is rejected by the
upload configuration, the request is answered with an error status, and the
world is left as it was: no call to the webhook is made and no file is kept.
The `fileFilter` accepts a MIME type exactly when `handleFile` raises no
notification for an empty file of that type. -/
theorem postExtract_rejects_invalid_upload (parse : String → Option JsVal) (w : World)
    (storedPath : String) (u : Upload) (webhook : WebhookOutcome) :
    let allowed := u.mimetype = "image/jpeg" ∨ u.mimetype = "image/png" ∨
      u.mimetype = "image/webp" ∨ u.mimetype = "application/pdf"
    ((¬ allowed ∨ u.size > 10 * 1024 * 1024) →
        (∃ e, uploadSingle w storedPath (some u) = (.error e, w)) ∧
        400 ≤ (postExtract parse w storedPath (some u) webhook).1.status ∧
        (postExtract parse w storedPath (some u) webhook).2.webhookCalls = w.webhookCalls ∧
        (postExtract parse w storedPath (some u) webhook).2 = w) ∧
    (∀ (st : Ui) (name : String),
        fileFilter u = .ok () ↔ (handleFile st ⟨name, u.mimetype, 0⟩).toasts = st.toasts) := by
  intro allowed
  constructor
  · intro h
    have h1 : serverAllowedTypes.contains u.mimetype = false ∨ u.size > fileSizeLimit := by
      rcases h with h | h
      · left
        cases hc : serverAllowedTypes.contains u.mimetype
        · rfl
        · exact absurd ((serverAllowed_iff _).mp hc) h
      · right
        simp only [fileSizeLimit]; omega
    obtain ⟨e, he⟩ := uploadSingle_rejects w storedPath u h1
    refine ⟨⟨e, he⟩, ?_, ?_, ?_⟩ <;> simp [postExtract, he, defaultErrorHandler]
  · intro st name
    rw [fileFilter_ok_iff]
    cases hc : clientAllowedTypes.contains u.mimetype
    · have hs : serverAllowedTypes.contains u.mimetype = false := hc
      have e : handleFile st ⟨name, u.mimetype, 0⟩ =
          showToast st "Invalid file type. Please upload an image or PDF." "error" := by
        simp only [handleFile, hc, Bool.false_eq_true, not_false_eq_true, if_true]
      rw [hs, e]
      exact ⟨fun h => Bool.noConfusion h, fun h => absurd h (toasts_append_ne _ _)⟩
    · have hs : serverAllowedTypes.contains u.mimetype = true := hc
      have hm : u.mimetype ∈ clientAllowedTypes := by simpa using hc
      rw [hs]
      simp [handleFile, hm, clientMaxSize]

/-- Witness for C2: a GIF is rejected with status 500 and no webhook call. -/
theorem postExtract_rejects_invalid_upload_witness :
    400 ≤ (postExtract parseLiteral emptyWorld "uploads/1.gif"
        (some ⟨"marksheet", "a.gif", "image/gif", 10⟩) (.response 200 (.ok "null"))).1.status ∧
      (postExtract parseLiteral emptyWorld "uploads/1.gif"
        (some ⟨"marksheet", "a.gif", "image/gif", 10⟩) (.response 200 (.ok "null"))).2
        = emptyWorld :=
  let h := (postExtract_rejects_invalid_upload parseLiteral emptyWorld "uploads/1.gif"
    ⟨"marksheet", "a.gif", "image/gif", 10⟩ (.response 200 (.ok "null"))).1
      (Or.inl (by decide))
  ⟨h.2.1, h.2.2.2⟩

/-- C3 (failing input): when the outbound call rejects, the handler answers
500 `Server error` from its `catch` clause and the temporary file written for
the request is still in the upload directory. -/
theorem postExtract_network_failure_keeps_temp_file :
    postExtract parseLiteral emptyWorld "uploads/1700000000000-1.png" (some sampleUpload)
        (.rejected (.error "connect ECONNREFUSED 127.0.0.1:5678")) =
      ({ status := 500,
         body := .obj [("error", .str "Server error"),
                       ("message", .str "connect ECONNREFUSED 127.0.0.1:5678")] },
       { files := ["uploads/1700000000000-1.png"],
         webhookCalls := [⟨"uploads/1700000000000-1.png", "marks.png", "image/png", 2048⟩] }) := by
  decide

/-- On every path on which the webhook answers (whatever its status, and
whether or not its body can be read), the temporary file is gone after the
handler; on the path on which the outbound call rejects it is still there. -/
theorem postExtract_temp_file (parse : String → Option JsVal) (w : World) (storedPath : String)
    (u : Upload) (hfield : u.fieldname = "marksheet")
    (htype : serverAllowedTypes.contains u.mimetype = true) (hsize : u.size ≤ fileSizeLimit) :
    (∀ status text, storedPath ∉
        (postExtract parse w storedPath (some u) (.response status text)).2.files) ∧
    (∀ e, storedPath ∈ (postExtract parse w storedPath (some u) (.rejected e)).2.files) := by
  constructor
  · intro status text
    simp only [postExtract, uploadSingle_accepts w storedPath u hfield htype hsize,
      extractHandler, unlinkSync_stored]
    rcases text with e | t
    · simp
    · by_cases hok : responseOk status = true <;> simp [hok]
  · intro e
    simp [postExtract, uploadSingle_accepts w storedPath u hfield htype hsize, extractHandler]

/-- C4: for an accepted upload and a webhook response with a success status
and body text `b`, the relay answers 200 with `success: true` and as `data`
the parsed value when `b` parses as JSON, and the object whose `raw` is
exactly `b` when it does not. -/
theorem postExtract_success_body (parse : String → Option JsVal) (w : World)
    (storedPath : String) (u : Upload) (status : Nat) (b : String)
    (hfield : u.fieldname = "marksheet")
    (htype : u.mimetype = "image/jpeg" ∨ u.mimetype = "image/png" ∨
      u.mimetype = "image/webp" ∨ u.mimetype = "application/pdf")
    (hsize : u.size ≤ 10 * 1024 * 1024)
    (hok : 200 ≤ status ∧ status ≤ 299) :
    (∀ v, parse b = some v →
      (postExtract parse w storedPath (some u) (.response status (.ok b))).1 =
        { status := 200, body := .obj [("success", .bool true), ("data", v)] }) ∧
    (parse b = none →
      (postExtract parse w storedPath (some u) (.response status (.ok b))).1 =
        { status := 200,
          body := .obj [("success", .bool true), ("data", .obj [("raw", .str b)])] }) := by
  have hacc := uploadSingle_accepts w storedPath u hfield ((serverAllowed_iff _).mpr htype)
    (by simp only [fileSizeLimit]; omega)
  have hr : responseOk status = true := by simp [responseOk, hok.1, hok.2]
  constructor
  · intro v hv
    simp [postExtract, hacc, extractHandler, unlinkSync_stored, hr, hv]
  · intro hv
    simp [postExtract, hacc, extractHandler, unlinkSync_stored, hr, hv]

/-- Witness for C4: the body `hello` is not JSON and comes back under `raw`. -/
theorem postExtract_success_body_witness :
    (postExtract parseLiteral emptyWorld "uploads/1.png" (some sampleUpload)
        (.response 200 (.ok "hello"))).1 =
      { status := 200,
        body := .obj [("success", .bool true), ("data", .obj [("raw", .str "hello")])] } :=
  (postExtract_success_body parseLiteral emptyWorld "uploads/1.png" sampleUpload 200 "hello"
    (by decide) (by decide) (by decide) (by decide)).2 (by decide)

/-- C5 (counterexample): the relay answers a 404 and a 503 of the webhook
with the same body in the same way, with status 500 and a body that carries
the webhook body only, so the response does not tell the webhook status. -/
theorem postExtract_error_hides_status :
    (postExtract parseLiteral emptyWorld "uploads/1.png" (some sampleUpload)
        (.response 404 (.ok "not found"))).1 =
      (postExtract parseLiteral emptyWorld "uploads/1.png" (some sampleUpload)
        (.response 503 (.ok "not found"))).1 ∧
    (postExtract parseLiteral emptyWorld "uploads/1.png" (some sampleUpload)
        (.response 404 (.ok "not found"))).1 =
      { status := 500,
        body := .obj [("error", .str "Failed to process marksheet"),
                      ("details", .str "not found")] } := by
  decide

/-- C5 (amended): for an accepted upload and a webhook response with a
non-success status and body text `b`, the relay answers with status 500 and
the body `error: Failed to process marksheet, details: b`, whatever the
status of the webhook was. -/
theorem postExtract_error_details (parse : String → Option JsVal) (w : World)
    (storedPath : String) (u : Upload) (c : Nat) (b : String)
    (hfield : u.fieldname = "marksheet")
    (htype : u.mimetype = "image/jpeg" ∨ u.mimetype = "image/png" ∨
      u.mimetype = "image/webp" ∨ u.mimetype = "application/pdf")
    (hsize : u.size ≤ 10 * 1024 * 1024)
    (hc : c < 200 ∨ 299 < c) :
    (postExtract parse w storedPath (some u) (.response c (.ok b))).1 =
      { status := 500,
        body := .obj [("error", .str "Failed to process marksheet"), ("details", .str b)] } := by
  have hacc := uploadSingle_accepts w storedPath u hfield ((serverAllowed_iff _).mpr htype)
    (by simp only [fileSizeLimit]; omega)
  have hr : responseOk c = false := by
    simp only [responseOk, Bool.and_eq_false_imp, decide_eq_true_eq, decide_eq_false_iff_not]
    omega
  simp [postExtract, hacc, extractHandler, unlinkSync_stored, hr]

/-- Witness for C5 (amended): a 404 with body `not found`. -/
theorem postExtract_error_details_witness :
    (postExtract parseLiteral emptyWorld "uploads/1.png" (some sampleUpload)
        (.response 404 (.ok "not found"))).1 =
      { status := 500,
        body := .obj [("error", .str "Failed to process marksheet"),
                      ("details", .str "not found")] } :=
  postExtract_error_details parseLiteral emptyWorld "uploads/1.png" sampleUpload 404 "not found"
    (by decide) (by decide) (by decide) (by decide)

/-! ## `parseInt` reads back the decimal text of an integer -/

theorem digitChar_toNat (d : Nat) (h : d < 10) : (Nat.digitChar d).toNat = 48 + d := by
  interval_cases d <;> rfl

theorem toDigitsCore_append (fuel : Nat) :
    ∀ (n : Nat) (ds : List Char),
      Nat.toDigitsCore 10 fuel n ds = Nat.toDigitsCore 10 fuel n [] ++ ds := by
  induction fuel with
  | zero => intro n ds; simp [Nat.toDigitsCore]
  | succ fuel ih =>
    intro n ds
    simp only [Nat.toDigitsCore]
    split
    · simp
    · rw [ih (n / 10) (Nat.digitChar (n % 10) :: ds), ih (n / 10) [Nat.digitChar (n % 10)]]
      simp

theorem digitsValue_append (radix : Nat) (ds : List Nat) (d : Nat) :
    digitsValue radix (ds ++ [d]) = digitsValue radix ds * radix + d := by
  simp [digitsValue, List.foldl_append]

theorem toDigitsCore_spec (fuel : Nat) :
    ∀ n : Nat, n < fuel →
      Nat.toDigitsCore 10 fuel n [] ≠ [] ∧
      (∀ c ∈ Nat.toDigitsCore 10 fuel n [], 48 ≤ c.toNat ∧ c.toNat ≤ 57) ∧
      digitsValue 10 ((Nat.toDigitsCore 10 fuel n []).map (fun c => c.toNat - 48)) = n := by
  induction fuel with
  | zero => intro n h; omega
  | succ fuel ih =>
    intro n hn
    have hd : (Nat.digitChar (n % 10)).toNat = 48 + n % 10 :=
      digitChar_toNat _ (Nat.mod_lt _ (by decide))
    simp only [Nat.toDigitsCore]
    split
    · rename_i h0
      have hlt : n < 10 := by omega
      refine ⟨by simp, ?_, ?_⟩
      · intro c hc
        simp only [List.mem_singleton] at hc
        subst hc
        omega
      · simp only [List.map_cons, List.map_nil, hd, digitsValue, List.foldl_cons, List.foldl_nil]
        omega
    · rename_i h0
      have hlt : n / 10 < fuel := by omega
      obtain ⟨_, h2, h3⟩ := ih (n / 10) hlt
      rw [toDigitsCore_append]
      refine ⟨by simp, ?_, ?_⟩
      · intro c hc
        rcases List.mem_append.mp hc with hc | hc
        · exact h2 c hc
        · simp only [List.mem_singleton] at hc
          subst hc
          omega
      · rw [List.map_append, List.map_cons, List.map_nil, digitsValue_append, h3, hd]
        omega

theorem radixDigit_decimal (c : Char) (h : 48 ≤ c.toNat ∧ c.toNat ≤ 57) :
    radixDigit 10 c = some (c.toNat - 48) := by
  have h3 : c.toNat - 48 < 10 := by omega
  simp [radixDigit, h.1, h.2, h3]

theorem takeDigits_decimal :
    ∀ cs : List Char, (∀ c ∈ cs, 48 ≤ c.toNat ∧ c.toNat ≤ 57) →
      takeDigits 10 cs = cs.map (fun c => c.toNat - 48) := by
  intro cs
  induction cs with
  | nil => intro _; rfl
  | cons c rest ih =>
    intro h
    have hc := h c (List.mem_cons_self _ _)
    have hrest := ih (fun d hd => h d (List.mem_cons_of_mem _ hd))
    simp [takeDigits, radixDigit_decimal c hc, hrest]

theorem isJsWhiteSpace_ascii (c : Char) (h : 33 ≤ c.toNat ∧ c.toNat ≤ 126) :
    isJsWhiteSpace c = false := by
  simp only [isJsWhiteSpace, Bool.or_eq_false_iff, Bool.and_eq_false_imp, decide_eq_false_iff_not,
    decide_eq_true_eq]
  omega

theorem digitsValue_foldl (radix : Nat) (ds : List Nat) :
    ∀ a : Nat, ds.foldl (fun acc d => acc * radix + d) a =
      a * radix ^ ds.length + ds.foldl (fun acc d => acc * radix + d) 0 := by
  induction ds with
  | nil => intro a; simp
  | cons d rest ih =>
    intro a
    simp only [List.foldl_cons, List.length_cons]
    rw [ih (a * radix + d), ih (0 * radix + d)]
    ring

theorem digitsValue_append_list (radix : Nat) (xs ys : List Nat) :
    digitsValue radix (xs ++ ys) =
      digitsValue radix xs * radix ^ ys.length + digitsValue radix ys := by
  simp only [digitsValue, List.foldl_append]
  exact digitsValue_foldl radix ys _

theorem digitsValue_lt (ds : List Nat) (h : ∀ d ∈ ds, d < 10) :
    digitsValue 10 ds < 10 ^ ds.length := by
  induction ds with
  | nil => simp [digitsValue]
  | cons d rest ih =>
    have hd := h d (List.mem_cons_self _ _)
    have hrest := ih (fun x hx => h x (List.mem_cons_of_mem _ hx))
    have e : digitsValue 10 (d :: rest) = d * 10 ^ rest.length + digitsValue 10 rest := by
      have := digitsValue_append_list 10 [d] rest
      simpa [digitsValue] using this
    rw [e, List.length_cons, pow_succ]
    nlinarith

theorem digitsValue_zeros (j : Nat) : digitsValue 10 (List.replicate j 0) = 0 := by
  induction j with
  | zero => rfl
  | succ j ih =>
    simp only [List.replicate_succ, digitsValue, List.foldl_cons]
    simpa [digitsValue] using ih

theorem toDigitsCore_lower (fuel : Nat) :
    ∀ n : Nat, n < fuel → n ≠ 0 →
      10 ^ ((Nat.toDigitsCore 10 fuel n []).length - 1) ≤ n := by
  induction fuel with
  | zero => intro n h; omega
  | succ fuel ih =>
    intro n hn h0
    simp only [Nat.toDigitsCore]
    split
    · simp; omega
    · rename_i hq
      have hlt : n / 10 < fuel := by omega
      have hne := (toDigitsCore_spec fuel (n / 10) hlt).1
      have hlen : 1 ≤ (Nat.toDigitsCore 10 fuel (n / 10) []).length := by
        cases h : Nat.toDigitsCore 10 fuel (n / 10) [] with
        | nil => exact absurd h hne
        | cons _ _ => simp
      have := ih (n / 10) hlt hq
      rw [toDigitsCore_append]
      simp only [List.length_append, List.length_singleton, Nat.add_sub_cancel]
      have e : (Nat.toDigitsCore 10 fuel (n / 10) []).length =
          ((Nat.toDigitsCore 10 fuel (n / 10) []).length - 1) + 1 := by omega
      rw [e, pow_succ]
      omega

/-- The facts about the decimal digits of a number that the proofs use. -/
theorem toDigits_facts (s : Nat) :
    Nat.toDigits 10 s ≠ [] ∧
    (∀ c ∈ Nat.toDigits 10 s, 48 ≤ c.toNat ∧ c.toNat ≤ 57) ∧
    digitsValue 10 ((Nat.toDigits 10 s).map (fun c => c.toNat - 48)) = s ∧
    s < 10 ^ (Nat.toDigits 10 s).length ∧
    (s ≠ 0 → 10 ^ ((Nat.toDigits 10 s).length - 1) ≤ s) := by
  obtain ⟨h1, h2, h3⟩ := toDigitsCore_spec (s + 1) s (Nat.lt_succ_self _)
  refine ⟨h1, h2, h3, ?_, toDigitsCore_lower (s + 1) s (Nat.lt_succ_self _)⟩
  have := digitsValue_lt ((Nat.toDigits 10 s).map (fun c => c.toNat - 48)) (by
    intro d hd
    obtain ⟨c, hc, rfl⟩ := List.mem_map.mp hd
    have := h2 c hc
    omega)
  rw [List.length_map] at this
  have h3' : digitsValue 10 ((Nat.toDigits 10 s).map (fun c => c.toNat - 48)) = s := h3
  omega

theorem takeDigits_leading :
    ∀ (A T : List Char), (∀ c ∈ A, 48 ≤ c.toNat ∧ c.toNat ≤ 57) →
      (∀ c ∈ T.head?, c = '.' ∨ c = 'e') →
      takeDigits 10 (A ++ T) = A.map (fun c => c.toNat - 48) := by
  intro A T hA hT
  induction A with
  | nil =>
    cases T with
    | nil => rfl
    | cons t rest =>
      have := hT t (by simp)
      rcases this with h | h <;> subst h <;> rfl
  | cons a rest ih =>
    have ha := hA a (List.mem_cons_self _ _)
    have hrest := ih (fun d hd => hA d (List.mem_cons_of_mem _ hd))
    simp [takeDigits, radixDigit_decimal a ha, hrest]

/-- The call `parseInt` on a text that starts with decimal digits, followed
by nothing, by a point or by the letter `e`, reads those digits. -/
theorem parseIntJs_leading (A T : List Char) (hne : A ≠ [])
    (hA : ∀ c ∈ A, 48 ≤ c.toNat ∧ c.toNat ≤ 57)
    (hT : ∀ c ∈ T.head?, c = '.' ∨ c = 'e') :
    parseIntJs (A ++ T) = some ((digitsValue 10 (A.map (fun c => c.toNat - 48)) : Nat) : Int) := by
  have htake := takeDigits_leading A T hA hT
  cases A with
  | nil => exact absurd rfl hne
  | cons a rest =>
    have ha := hA a (List.mem_cons_self _ _)
    have hws : isJsWhiteSpace a = false := isJsWhiteSpace_ascii a (by omega)
    have hminus : a ≠ '-' := by
      intro h; subst h; revert ha; decide
    have hplus : a ≠ '+' := by
      intro h; subst h; revert ha; decide
    have h1 : trimStart (a :: rest ++ T) = a :: rest ++ T := by
      simp [trimStart, hws]
    have h2 : stripSign (a :: rest ++ T) = (false, a :: rest ++ T) := by
      simp [stripSign, hminus, hplus]
    have h3 : stripHex (a :: rest ++ T) = (10, a :: rest ++ T) := by
      show stripHex (a :: (rest ++ T)) = (10, a :: (rest ++ T))
      cases hrt : rest ++ T with
      | nil => rfl
      | cons d more =>
        have hd : d ≠ 'x' ∧ d ≠ 'X' := by
          cases rest with
          | nil =>
            simp only [List.nil_append] at hrt
            have := hT d (by simp [hrt])
            rcases this with h | h <;> subst h <;> decide
          | cons r rs =>
            simp only [List.cons_append, List.cons.injEq] at hrt
            have hr := hA r (List.mem_cons_of_mem _ (List.mem_cons_self _ _))
            rw [hrt.1] at hr
            constructor
            · intro h; subst h; revert hr; decide
            · intro h; subst h; revert hr; decide
        simp [stripHex, hd.1, hd.2]
    simp only [parseIntJs, h1, h2, h3, htake]
    simp

theorem stripZeros_spec (fuel : Nat) :
    ∀ (s : Nat) (e : Int), s ≠ 0 →
      (stripZeros fuel s e).1 ≠ 0 ∧
      ((stripZeros fuel s e).1 : ℚ) * (10 : ℚ) ^ (stripZeros fuel s e).2 = (s : ℚ) * (10 : ℚ) ^ e := by
  induction fuel with
  | zero => intro s e hs; exact ⟨hs, rfl⟩
  | succ fuel ih =>
    intro s e hs
    simp only [stripZeros]
    split
    · rename_i h
      have hq : s / 10 ≠ 0 := by omega
      obtain ⟨h1, h2⟩ := ih (s / 10) (e + 1) hq
      refine ⟨h1, ?_⟩
      rw [h2, zpow_add_one₀ (by norm_num : (10 : ℚ) ≠ 0)]
      have hs10 : (s : ℚ) = ((s / 10 : ℕ) : ℚ) * 10 := by
        have : s = s / 10 * 10 := by omega
        exact_mod_cast this
      rw [hs10]
      have hq10 : (s / 10 * 10) / 10 = s / 10 := by omega
      simp only [Nat.cast_mul, Nat.cast_ofNat] at *
      ring_nf
    · exact ⟨hs, rfl⟩

theorem colorClassOf_floor (r : Nat) (v : ℚ) (h1 : (r : ℚ) ≤ v) (h2 : v < r + 1)
    (h3 : v < 10 ^ 21) :
    colorClassOf (r : Int) =
      (if v ≥ 10 ^ 21 then "low" else if v ≥ 75 then "high"
       else if v < 40 then "low" else "medium") := by
  have hge : v ≥ 75 ↔ (r : Int) ≥ 75 := by
    constructor
    · intro h
      have : (75 : ℚ) < (r : ℚ) + 1 := lt_of_le_of_lt h h2
      have : (75 : ℚ) < ((r + 1 : ℕ) : ℚ) := by push_cast; exact this
      have : 75 < r + 1 := by exact_mod_cast this
      omega
    · intro h
      have : (75 : ℚ) ≤ (r : ℚ) := by exact_mod_cast h
      exact le_trans this h1
  have hlt : v < 40 ↔ (r : Int) < 40 := by
    constructor
    · intro h
      have : (r : ℚ) < 40 := lt_of_le_of_lt h1 h
      exact_mod_cast this
    · intro h
      have h' : r + 1 ≤ 40 := by omega
      have : ((r + 1 : ℕ) : ℚ) ≤ 40 := by exact_mod_cast h'
      push_cast at this
      exact lt_of_lt_of_le h2 this
  have h3' : ¬ v ≥ 10 ^ 21 := not_le.mpr h3
  simp only [colorClassOf, h3', if_false]
  by_cases a : v ≥ 75
  · simp [a, hge.mp a]
  · have a' : ¬ (r : Int) ≥ 75 := fun h => a (hge.mpr h)
    by_cases b : v < 40
    · simp [a, a', b, hlt.mp b]
    · have b' : ¬ (r : Int) < 40 := fun h => b (hlt.mpr h)
      simp [a, a', b, b']

theorem colorClassOf_small (r : Int) (v : ℚ) (hr : r < 40) (hv : v ≥ 10 ^ 21 ∨ v < 40) :
    colorClassOf r =
      (if v ≥ 10 ^ 21 then "low" else if v ≥ 75 then "high"
       else if v < 40 then "low" else "medium") := by
  have a : ¬ r ≥ 75 := by omega
  simp only [colorClassOf, a, hr, if_false, if_true]
  by_cases h : v ≥ 10 ^ 21
  · simp [h]
  · have h40 : v < 40 := by
      rcases hv with hv | hv
      · exact absurd hv h
      · exact hv
    have h75 : ¬ v ≥ 75 := by
      intro h'
      linarith
    simp [h, h75, h40]

theorem colorClassOf_negative (text : List Char) :
    colorClassOf ((parseIntJs ('-' :: text)).getD 0) = "low" := by
  have hws : isJsWhiteSpace '-' = false := by decide
  have h1 : trimStart ('-' :: text) = '-' :: text := by simp [trimStart, hws]
  simp only [parseIntJs, h1, stripSign, if_true]
  split
  · decide
  · simp only [Option.getD_some]
    have : ∀ n : Nat, colorClassOf (-(n : Int)) = "low" := by
      intro n
      have a : ¬ (-(n : Int)) ≥ 75 := by omega
      have b : (-(n : Int)) < 40 := by omega
      simp [colorClassOf, a, b]
    exact this _

theorem decimalText_band (s : Nat) (e : Int) (hs : s ≠ 0) :
    colorClassOf ((parseIntJs (decimalText s e)).getD 0) =
      (if (s : ℚ) * (10 : ℚ) ^ e ≥ 10 ^ 21 then "low"
       else if (s : ℚ) * (10 : ℚ) ^ e ≥ 75 then "high"
       else if (s : ℚ) * (10 : ℚ) ^ e < 40 then "low" else "medium") := by
  obtain ⟨hne, hall, hval, hup, hlow⟩ := toDigits_facts s
  have hlow := hlow hs
  have h10 : (10 : ℚ) ≠ 0 := by norm_num
  have hpos : (0 : ℚ) < (10 : ℚ) ^ e := zpow_pos (by norm_num) e
  have hk1 : 1 ≤ (Nat.toDigits 10 s).length := by
    cases h : Nat.toDigits 10 s with
    | nil => exact absurd h hne
    | cons _ _ => simp
  -- value bounds
  have hupQ : (s : ℚ) * (10 : ℚ) ^ e < (10 : ℚ) ^ (((Nat.toDigits 10 s).length : Int) + e) := by
    rw [zpow_add₀ h10, zpow_natCast]
    have : (s : ℚ) < (10 : ℚ) ^ (Nat.toDigits 10 s).length := by exact_mod_cast hup
    exact mul_lt_mul_of_pos_right this hpos
  have hlowQ : (10 : ℚ) ^ (((Nat.toDigits 10 s).length : Int) + e - 1) ≤ (s : ℚ) * (10 : ℚ) ^ e := by
    have e1 : ((Nat.toDigits 10 s).length : Int) + e - 1 =
        (((Nat.toDigits 10 s).length - 1 : ℕ) : Int) + e := by omega
    rw [e1, zpow_add₀ h10, zpow_natCast]
    have : (10 : ℚ) ^ ((Nat.toDigits 10 s).length - 1) ≤ (s : ℚ) := by exact_mod_cast hlow
    exact mul_le_mul_of_nonneg_right this (le_of_lt hpos)
  have h21 : (10 : ℚ) ^ (21 : Int) = 10 ^ 21 := by norm_num
  simp only [decimalText]
  split
  · -- digits followed by zeros
    rename_i hA
    have he : 0 ≤ e := by omega
    have hz : ∀ c ∈ Nat.toDigits 10 s ++ List.replicate e.toNat '0',
        48 ≤ c.toNat ∧ c.toNat ≤ 57 := by
      intro c hc
      rcases List.mem_append.mp hc with h | h
      · exact hall c h
      · rw [List.eq_of_mem_replicate h]; decide
    have hp := parseIntJs_leading (Nat.toDigits 10 s ++ List.replicate e.toNat '0') []
      (by simp [hne]) hz (by simp)
    rw [List.append_nil] at hp
    rw [hp, Option.getD_some]
    have hr : digitsValue 10 ((Nat.toDigits 10 s ++ List.replicate e.toNat '0').map
        (fun c => c.toNat - 48)) = s * 10 ^ e.toNat := by
      rw [List.map_append, digitsValue_append_list, hval, List.map_replicate]
      have : ('0' : Char).toNat - 48 = 0 := by decide
      rw [this, digitsValue_zeros]
      simp
    rw [hr]
    have hv : (s : ℚ) * (10 : ℚ) ^ e = ((s * 10 ^ e.toNat : ℕ) : ℚ) := by
      obtain ⟨j, rfl⟩ := Int.eq_ofNat_of_zero_le he
      simp [zpow_natCast]
    have hlt : (s : ℚ) * (10 : ℚ) ^ e < 10 ^ 21 := by
      refine lt_of_lt_of_le hupQ ?_
      rw [← h21]
      exact zpow_le_zpow_right₀ (by norm_num) hA.2
    apply colorClassOf_floor _ _ (le_of_eq hv.symm) _ hlt
    rw [hv]
    exact lt_add_one _
  · split
    · -- point inside the digits
      rename_i hA hB
      have hp := parseIntJs_leading
        ((Nat.toDigits 10 s).take (((Nat.toDigits 10 s).length : Int) + e).toNat)
        ('.' :: (Nat.toDigits 10 s).drop (((Nat.toDigits 10 s).length : Int) + e).toNat)
        (by
          intro h
          rcases List.take_eq_nil_iff.mp h with h0 | h0
          · omega
          · exact hne h0)
        (fun c hc => hall c (List.mem_of_mem_take hc)) (by simp)
      rw [hp, Option.getD_some]
      have he : e < 0 := by omega
      have hi : (((Nat.toDigits 10 s).length : Int) + e).toNat ≤ (Nat.toDigits 10 s).length := by
        omega
      obtain ⟨j, hj⟩ : ∃ j : ℕ, e = -(j : Int) := ⟨(-e).toNat, by omega⟩
      have hlen : ((Nat.toDigits 10 s).drop
          (((Nat.toDigits 10 s).length : Int) + e).toNat).length = j := by
        rw [List.length_drop]
        omega
      have hdrop : ∀ c ∈ (Nat.toDigits 10 s).drop (((Nat.toDigits 10 s).length : Int) + e).toNat,
          48 ≤ c.toNat ∧ c.toNat ≤ 57 := fun c hc => hall c (List.mem_of_mem_drop hc)
      have hsplit := digitsValue_append_list 10
        (((Nat.toDigits 10 s).take (((Nat.toDigits 10 s).length : Int) + e).toNat).map
          (fun c => c.toNat - 48))
        (((Nat.toDigits 10 s).drop (((Nat.toDigits 10 s).length : Int) + e).toNat).map
          (fun c => c.toNat - 48))
      rw [← List.map_append, List.take_append_drop, hval, List.length_map, hlen] at hsplit
      have hd := digitsValue_lt
        (((Nat.toDigits 10 s).drop (((Nat.toDigits 10 s).length : Int) + e).toNat).map
          (fun c => c.toNat - 48))
        (by
          intro d hd
          obtain ⟨c, hc, rfl⟩ := List.mem_map.mp hd
          have := hdrop c hc
          omega)
      rw [List.length_map, hlen] at hd
      generalize digitsValue 10 (((Nat.toDigits 10 s).take
        (((Nat.toDigits 10 s).length : Int) + e).toNat).map (fun c => c.toNat - 48)) = r
        at hsplit ⊢
      generalize digitsValue 10 (((Nat.toDigits 10 s).drop
        (((Nat.toDigits 10 s).length : Int) + e).toNat).map (fun c => c.toNat - 48)) = d
        at hsplit hd
      have hP : (0 : ℚ) < (10 : ℚ) ^ j := by positivity
      have hv : (s : ℚ) * (10 : ℚ) ^ e * (10 : ℚ) ^ j = s := by
        rw [hj, zpow_neg, zpow_natCast, mul_assoc, inv_mul_cancel₀ (ne_of_gt hP), mul_one]
      have hsQ : (s : ℚ) = (r : ℚ) * (10 : ℚ) ^ j + d := by exact_mod_cast hsplit
      have hdQ : (d : ℚ) < (10 : ℚ) ^ j := by exact_mod_cast hd
      have hlt : (s : ℚ) * (10 : ℚ) ^ e < 10 ^ 21 := by
        refine lt_of_lt_of_le hupQ ?_
        rw [← h21]
        exact zpow_le_zpow_right₀ (by norm_num) hB.2
      apply colorClassOf_floor _ _ _ _ hlt
      · apply le_of_mul_le_mul_right _ hP
        rw [hv, hsQ]
        have : (0 : ℚ) ≤ d := Nat.cast_nonneg d
        linarith
      · apply lt_of_mul_lt_mul_right _ (le_of_lt hP)
        rw [hv, hsQ]
        linarith
    · split
      · -- zero, point, zeros, digits
        rename_i hA hB hC
        have hp := parseIntJs_leading ['0']
          ('.' :: (List.replicate (-(((Nat.toDigits 10 s).length : Int) + e)).toNat '0' ++
            Nat.toDigits 10 s))
          (by simp) (by intro c hc; simp only [List.mem_singleton] at hc; subst hc; decide)
          (by simp)
        have hp' : parseIntJs ('0' :: '.' ::
            (List.replicate (-(((Nat.toDigits 10 s).length : Int) + e)).toNat '0' ++
              Nat.toDigits 10 s)) = some ((0 : Nat) : Int) := hp
        rw [hp', Option.getD_some]
        have hlt1 : (s : ℚ) * (10 : ℚ) ^ e < 1 := by
          refine lt_of_lt_of_le hupQ ?_
          rw [← zpow_zero (10 : ℚ)]
          exact zpow_le_zpow_right₀ (by norm_num) hC.2
        have hnn : (0 : ℚ) ≤ (s : ℚ) * (10 : ℚ) ^ e :=
          mul_nonneg (Nat.cast_nonneg s) (le_of_lt hpos)
        apply colorClassOf_floor 0 _ (by simpa using hnn) (by simpa using hlt1)
        exact lt_trans hlt1 (by norm_num)
      · -- exponent form
        rename_i hA hB hC
        have hn : 21 < ((Nat.toDigits 10 s).length : Int) + e ∨
            ((Nat.toDigits 10 s).length : Int) + e ≤ -6 := by omega
        have hv : (s : ℚ) * (10 : ℚ) ^ e ≥ 10 ^ 21 ∨ (s : ℚ) * (10 : ℚ) ^ e < 40 := by
          rcases hn with hn | hn
          · left
            refine le_trans ?_ hlowQ
            rw [← h21]
            exact zpow_le_zpow_right₀ (by norm_num) (by omega)
          · right
            refine lt_trans (lt_of_lt_of_le hupQ ?_) (by norm_num : (1 : ℚ) < 40)
            rw [← zpow_zero (10 : ℚ)]
            exact zpow_le_zpow_right₀ (by norm_num) (by omega)
        generalize ((Nat.toDigits 10 s).length : Int) + e - 1 = ex
        rcases hds : Nat.toDigits 10 s with _ | ⟨d, rest⟩
        · exact absurd hds hne
        · have hd : 48 ≤ d.toNat ∧ d.toNat ≤ 57 := hall d (by rw [hds]; exact List.mem_cons_self _ _)
          have hone : ∀ T : List Char, (∀ c ∈ T.head?, c = '.' ∨ c = 'e') →
              colorClassOf ((parseIntJs (d :: T)).getD 0) =
                (if (s : ℚ) * (10 : ℚ) ^ e ≥ 10 ^ 21 then "low"
                 else if (s : ℚ) * (10 : ℚ) ^ e ≥ 75 then "high"
                 else if (s : ℚ) * (10 : ℚ) ^ e < 40 then "low" else "medium") := by
            intro T hT
            have hp := parseIntJs_leading [d] T (by simp)
              (by intro c hc; simp only [List.mem_singleton] at hc; subst hc; exact hd) hT
            have hp' : parseIntJs (d :: T) = some ((d.toNat - 48 : Nat) : Int) := by
              simpa [digitsValue] using hp
            rw [hp', Option.getD_some]
            exact colorClassOf_small _ _ (by omega) hv
          cases rest with
          | nil => exact hone _ (by simp)
          | cons r rs => exact hone _ (by simp)

theorem stripZeros_no_trailing_zero (fuel : Nat) :
    ∀ (s : Nat) (e : Int), s ≠ 0 → s ≤ fuel → (stripZeros fuel s e).1 % 10 ≠ 0 := by
  induction fuel with
  | zero => intro s e hs hle; omega
  | succ fuel ih =>
    intro s e hs hle
    simp only [stripZeros]
    split
    · exact ih (s / 10) (e + 1) (by omega) (by omega)
    · rename_i h
      intro h0
      exact h ⟨hs, h0⟩

/-- The row of a numeric score: the band of its value, `low` from `10 ^ 21`
on, and the text that `Number::toString` prints. -/
theorem markRow_number (subject : String) (m e : Int) :
    markRow subject (.num m e) =
      .ok { subject := subject,
            colorClass :=
              if numberValue m e ≥ 10 ^ 21 then "low"
              else if numberValue m e ≥ 75 then "high"
              else if numberValue m e < 40 then "low" else "medium",
            valueText := numberToString m e } := by
  have hband : colorClassOf ((parseIntJs (numberToString m e).data).getD 0) =
      (if numberValue m e ≥ 10 ^ 21 then "low"
       else if numberValue m e ≥ 75 then "high"
       else if numberValue m e < 40 then "low" else "medium") := by
    by_cases h0 : m = 0
    · subst h0
      have hv : numberValue 0 e = 0 := by simp [numberValue]
      rw [hv]
      have : colorClassOf ((parseIntJs (numberToString 0 e).data).getD 0) = "low" := by
        simp only [numberToString, if_true]
        decide
      rw [this]
      norm_num
    · have hs : m.natAbs ≠ 0 := by omega
      obtain ⟨h1, h2⟩ := stripZeros_spec m.natAbs m.natAbs e hs
      by_cases hneg : m < 0
      · have hd : (numberToString m e).data =
            '-' :: decimalText (stripZeros m.natAbs m.natAbs e).1
              (stripZeros m.natAbs m.natAbs e).2 := by
          simp only [numberToString, h0, hneg, if_false, if_true]
        rw [hd, colorClassOf_negative]
        have hpos : (0 : ℚ) < (10 : ℚ) ^ e := zpow_pos (by norm_num) e
        have hm : (m : ℚ) < 0 := by exact_mod_cast hneg
        have hv : numberValue m e < 0 := mul_neg_of_neg_of_pos hm hpos
        have a : ¬ numberValue m e ≥ 10 ^ 21 := by
          intro h
          have : (0 : ℚ) < 10 ^ 21 := by norm_num
          linarith
        have b : ¬ numberValue m e ≥ 75 := by
          intro h
          linarith
        have c : numberValue m e < 40 := by linarith
        simp [a, b, c]
      · have hd : (numberToString m e).data =
            decimalText (stripZeros m.natAbs m.natAbs e).1
              (stripZeros m.natAbs m.natAbs e).2 := by
          simp only [numberToString, h0, hneg, if_false]
        rw [hd, decimalText_band _ _ h1, h2]
        have hm : ((m.natAbs : ℕ) : ℚ) = (m : ℚ) := by
          rw [← Int.cast_natCast, Int.natAbs_of_nonneg (by omega)]
        rw [hm]
        rfl
  simp only [markRow, toStringJs]
  rw [hband]

/-! ## Card rendering -/

theorem markRows_forall₂ :
    ∀ (entries : List (String × JsVal)) (rows : List MarkRow),
      markRows entries = .ok rows →
      List.Forall₂ (fun e r => markRow e.1 e.2 = .ok r) entries rows := by
  intro entries
  induction entries with
  | nil =>
    intro rows h
    simp only [markRows] at h
    cases h
    exact List.Forall₂.nil
  | cons e rest ih =>
    intro rows h
    obtain ⟨subject, value⟩ := e
    simp only [markRows] at h
    cases h1 : markRow subject value with
    | error err => rw [h1] at h; cases h
    | ok r =>
      rw [h1] at h
      cases h2 : markRows rest with
      | error err => rw [h2] at h; cases h
      | ok rs =>
        rw [h2] at h
        cases h
        exact List.Forall₂.cons h1 (ih rs h2)

/-- The loop over the entries completes when every score has a text. -/
theorem markRows_total :
    ∀ entries : List (String × JsVal),
      (∀ entry ∈ entries, ∃ t, toStringJs entry.2 = .ok t) →
      ∃ rows, markRows entries = .ok rows := by
  intro entries
  induction entries with
  | nil => intro _; exact ⟨[], rfl⟩
  | cons entry rest ih =>
    intro h
    obtain ⟨subject, value⟩ := entry
    obtain ⟨t, ht⟩ := h (subject, value) (List.mem_cons_self _ _)
    obtain ⟨rs, hrs⟩ := ih (fun x hx => h x (List.mem_cons_of_mem _ hx))
    have ht' : toStringJs value = .ok t := ht
    exact ⟨{ subject := subject, colorClass := colorClassOf ((parseIntJs t.data).getD 0),
             valueText := t } :: rs, by simp only [markRows, markRow, ht', hrs]⟩

theorem createStudentCard_obj (toUpperCase : List Nat → List Nat)
    (props : List (String × JsVal)) (index : Nat) :
    createStudentCard toUpperCase (.obj props) index =
      match jsOr (lookupProp "name" props) (.str ("Student " ++ Nat.repr (index + 1))) with
      | .str name =>
        match markRows (marksEntries (jsOr (lookupProp "marks" props)
            (jsOr (lookupProp "subjects" props) (.obj [])))) with
        | .error e => .error e
        | .ok rows =>
          match toStringJs (jsOr (lookupProp "roll_no" props)
              (jsOr (lookupProp "rollNo" props) (jsOr (lookupProp "id" props) (.str "N/A")))) with
          | .error e => .error e
          | .ok rollText =>
            .ok { initials := toUpperCase (initialsOf name), name := name,
                  rollNo := rollText,
                  marks := if rows.isEmpty then .noMarksData else .rows rows }
      | _ => .error (.typeError "name.split is not a function") := by
  simp only [createStudentCard, getProp, bind, Except.bind, pure, Except.pure]
  split <;> rename_i hname
  · generalize markRows _ = r
    cases r with
    | error e => rfl
    | ok rows =>
      generalize toStringJs _ = t
      cases t <;> rfl
  · rfl

/-- The first code units of the pieces `split(' ')` returns are those of the
characters that start a word; after the first piece they are those of the
word starts that follow a character of the text. -/
theorem splitOnChar_firstUnits :
    ∀ s : List Char,
      (((splitOnChar ' ' s).map firstUnit).flatten =
        (wordStarts true s).map firstCodeUnit) ∧
      ((((splitOnChar ' ' s).tail).map firstUnit).flatten =
        (wordStarts false s).map firstCodeUnit) := by
  intro s
  induction s with
  | nil => exact ⟨rfl, rfl⟩
  | cons c rest ih =>
    obtain ⟨ih1, ih2⟩ := ih
    by_cases hc : c = ' '
    · subst hc
      simp only [splitOnChar, wordStarts, if_true, List.map_cons, List.flatten_cons, firstUnit,
        List.nil_append, List.tail_cons]
      exact ⟨ih1, ih1⟩
    · cases hsp : splitOnChar ' ' rest with
      | nil =>
        rw [hsp] at ih1 ih2
        simp only [List.map_nil, List.flatten_nil, List.tail_nil] at ih1 ih2
        have e1 : wordStarts false rest = [] := by
          cases hw : wordStarts false rest with
          | nil => rfl
          | cons x xs => rw [hw] at ih2; simp at ih2
        simp [splitOnChar, hc, hsp, wordStarts, firstUnit, e1]
      | cons w ws =>
        rw [hsp] at ih1 ih2
        simp only [List.tail_cons] at ih2
        simp [splitOnChar, hc, hsp, wordStarts, firstUnit, ih2]

theorem initialsOf_eq_specInitials (name : String) : initialsOf name = specInitials name := by
  simp only [initialsOf, specInitials, (splitOnChar_firstUnits name.data).1, List.map_take]


/-- C6 (counterexample): three scores the claim misjudges.  The string `85%`
is not a number, so the claim bands it as 0, that is `low`, and `parseInt`
reads 85, `high`.  The number `10 ^ 21` is at least 75, so the claim bands it
`high`; it prints as `1e+21`, `parseInt` reads 1, `low`.  The string
`<b>90</b>` is interpolated into the markup as it is, tags included. -/
theorem score_band_follows_parseInt_of_text :
    createStudentCard asciiUpperCase
        (.obj [("name", .str "Asha"), ("marks", .obj [("Math", .str "85%")])]) 0 =
      .ok { initials := [65], name := "Asha", rollNo := "N/A",
            marks := .rows [{ subject := "Math", colorClass := "high", valueText := "85%" }] } ∧
    markRow "Math" (.num 1 21) =
      .ok { subject := "Math", colorClass := "low", valueText := "1e+21" } ∧
    markRow "Math" (.str "<b>90</b>") =
      .ok { subject := "Math", colorClass := "low", valueText := "<b>90</b>" } := by
  decide

/-- C6 (amended): a numeric score with value `v` below `10 ^ 21` is banded
`high` when `v ≥ 75`, `low` when `v < 40` and `medium` otherwise, and a
numeric score from `10 ^ 21` on, as well as an infinite one, is banded
`low`; any score is banded in that
way by the integer `parseInt` reads at the start of its text, and as 0, that
is `low`, when `parseInt` reads none; the text interpolated into the markup
is the text of the value, not escaped; and the rows of a card are the rows
of the entries of its marks, in order. -/
theorem markRow_band (subject : String) :
    (∀ m e : Int, markRow subject (.num m e) =
      .ok { subject := subject,
            colorClass :=
              if numberValue m e ≥ 10 ^ 21 then "low"
              else if numberValue m e ≥ 75 then "high"
              else if numberValue m e < 40 then "low" else "medium",
            valueText := numberToString m e }) ∧
    (∀ negative : Bool, markRow subject (.infinity negative) =
      .ok { subject := subject, colorClass := "low",
            valueText := if negative then "-Infinity" else "Infinity" }) ∧
    (∀ (value : JsVal) (text : String), toStringJs value = .ok text →
      (∀ n : Int, parseIntJs text.data = some n → markRow subject value =
        .ok { subject := subject,
              colorClass := if n ≥ 75 then "high" else if n < 40 then "low" else "medium",
              valueText := text }) ∧
      (parseIntJs text.data = none → markRow subject value =
        .ok { subject := subject, colorClass := "low", valueText := text })) ∧
    (∀ (entries : List (String × JsVal)) (rows : List MarkRow), markRows entries = .ok rows →
      List.Forall₂ (fun e r => markRow e.1 e.2 = .ok r) entries rows) ∧
    (∀ (toUpperCase : List Nat → List Nat) (props : List (String × JsVal)) (index : Nat)
        (card : Card),
      createStudentCard toUpperCase (.obj props) index = .ok card →
      ∃ rows, markRows (marksEntries (jsOr (lookupProp "marks" props)
          (jsOr (lookupProp "subjects" props) (.obj [])))) = .ok rows ∧
        card.marks = if rows.isEmpty then .noMarksData else .rows rows) := by
  refine ⟨markRow_number subject, ?_, ?_, markRows_forall₂, ?_⟩
  · intro negative
    cases negative <;> rfl
  · intro value text ht
    constructor
    · intro n hn
      simp [markRow, ht, hn, colorClassOf]
    · intro hn
      simp [markRow, ht, hn, colorClassOf]
  · intro toUpperCase props index card h
    rw [createStudentCard_obj] at h
    split at h
    · cases hr : markRows (marksEntries (jsOr (lookupProp "marks" props)
          (jsOr (lookupProp "subjects" props) (.obj [])))) with
      | error e => rw [hr] at h; cases h
      | ok rows =>
        simp only [hr] at h
        refine ⟨rows, rfl, ?_⟩
        cases ht : toStringJs (jsOr (lookupProp "roll_no" props)
            (jsOr (lookupProp "rollNo" props) (jsOr (lookupProp "id" props) (.str "N/A")))) with
        | error e => rw [ht] at h; cases h
        | ok t =>
          simp only [ht] at h
          cases h
          rfl
    · cases h

/-- Witness for C6: Math 80 is `high`, Eng 35 is `low`, and the fractional
scores 85.5 and 39.5 are `high` and `low`. -/
theorem markRow_band_witness :
    markRow "Math" (.num 80 0) =
      .ok { subject := "Math", colorClass := "high", valueText := "80" } ∧
    markRow "Eng" (.num 35 0) =
      .ok { subject := "Eng", colorClass := "low", valueText := "35" } ∧
    markRow "Physics" (.num 855 (-1)) =
      .ok { subject := "Physics", colorClass := "high", valueText := "85.5" } ∧
    markRow "Art" (.num 395 (-1)) =
      .ok { subject := "Art", colorClass := "low", valueText := "39.5" } := by
  have v1 : numberValue 80 0 = 80 := by norm_num [numberValue]
  have v2 : numberValue 35 0 = 35 := by norm_num [numberValue]
  have v3 : numberValue 855 (-1) = 171 / 2 := by norm_num [numberValue]
  have v4 : numberValue 395 (-1) = 79 / 2 := by norm_num [numberValue]
  have t1 : numberToString 80 0 = "80" := by decide
  have t2 : numberToString 35 0 = "35" := by decide
  have t3 : numberToString 855 (-1) = "85.5" := by decide
  have t4 : numberToString 395 (-1) = "39.5" := by decide
  refine ⟨?_, ?_, ?_, ?_⟩
  · rw [(markRow_band "Math").1 80 0, v1, t1]
    norm_num
  · rw [(markRow_band "Eng").1 35 0, v2, t2]
    norm_num
  · rw [(markRow_band "Physics").1 855 (-1), v3, t3]
    norm_num
  · rw [(markRow_band "Art").1 395 (-1), v4, t4]
    norm_num

/-- C8 (counterexample): the record has an `id`, with value 0, and the card
shows the identifier `N/A`. -/
theorem createStudentCard_zero_id_is_not_available :
    createStudentCard asciiUpperCase (.obj [("name", .str "Asha"), ("id", .num 0 0)]) 0 =
      .ok { initials := [65], name := "Asha", rollNo := "N/A", marks := .noMarksData } ∧
    lookupProp "id" [("name", JsVal.str "Asha"), ("id", JsVal.num 0 0)] = .num 0 0 ∧
    toStringJs (.num 0 0) = .ok "0" := by
  decide

/-- C8 (amended): for a record at position `i` whose name, if truthy, is a
string, whose identifier has a text and whose scores each have a text,
`createStudentCard` returns a card; the name it interpolates is the name of
the record when that is a non-empty string and `Student <i+1>` when it is
absent or falsy; its identifier is the text of the first truthy of
`roll_no`, `rollNo`, `id` and `N/A` when none is truthy; absent marks give
the `No marks data` placeholder; and its initials are the upper-casing of
the first code units of the first two non-empty space-separated words of
that name, which are the first characters of those words when these lie in
the Basic Multilingual Plane. -/
theorem createStudentCard_fields (toUpperCase : List Nat → List Nat)
    (props : List (String × JsVal)) (i : Nat) (rollText : String)
    (hname : (∃ s, lookupProp "name" props = .str s) ∨ truthy (lookupProp "name" props) = false)
    (hscores : ∀ entry ∈ marksEntries (jsOr (lookupProp "marks" props)
        (jsOr (lookupProp "subjects" props) (.obj []))), ∃ t, toStringJs entry.2 = .ok t)
    (hroll : toStringJs
        (if truthy (lookupProp "roll_no" props) then lookupProp "roll_no" props
         else if truthy (lookupProp "rollNo" props) then lookupProp "rollNo" props
         else if truthy (lookupProp "id" props) then lookupProp "id" props
         else .str "N/A") = .ok rollText) :
    ∃ card, createStudentCard toUpperCase (.obj props) i = .ok card ∧
      card.name = (match lookupProp "name" props with
        | .str s => if s = "" then "Student " ++ Nat.repr (i + 1) else s
        | _ => "Student " ++ Nat.repr (i + 1)) ∧
      card.rollNo = rollText ∧
      (truthy (lookupProp "marks" props) = false →
        truthy (lookupProp "subjects" props) = false → card.marks = .noMarksData) ∧
      card.initials = toUpperCase (specInitials card.name) ∧
      ((∀ c ∈ (wordStarts true card.name.data).take 2, c.toNat < 0x10000) →
        card.initials =
          toUpperCase (((wordStarts true card.name.data).take 2).map Char.toNat)) := by
  obtain ⟨rows, hmarks⟩ := markRows_total _ hscores
  have hroll2 : toStringJs (jsOr (lookupProp "roll_no" props)
      (jsOr (lookupProp "rollNo" props) (jsOr (lookupProp "id" props) (.str "N/A")))) =
      .ok rollText := hroll
  have hnameVal : ∃ name,
      jsOr (lookupProp "name" props) (.str ("Student " ++ Nat.repr (i + 1))) = .str name ∧
      name = (match lookupProp "name" props with
        | .str s => if s = "" then "Student " ++ Nat.repr (i + 1) else s
        | _ => "Student " ++ Nat.repr (i + 1)) := by
    rcases hname with ⟨s, hs⟩ | hf
    · rw [hs]
      by_cases he : s = ""
      · subst he
        exact ⟨_, rfl, rfl⟩
      · refine ⟨s, ?_, by simp [he]⟩
        simp [jsOr, truthy, he]
    · refine ⟨"Student " ++ Nat.repr (i + 1), by simp [jsOr, hf], ?_⟩
      cases hl : lookupProp "name" props with
      | str s =>
        rw [hl] at hf
        have : s = "" := by simpa [truthy] using hf
        simp [this]
      | _ => rfl
  obtain ⟨name, hn1, hn2⟩ := hnameVal
  refine ⟨{ initials := toUpperCase (initialsOf name), name := name,
            rollNo := rollText,
            marks := if rows.isEmpty then .noMarksData else .rows rows }, ?_, hn2, rfl, ?_, ?_, ?_⟩
  · rw [createStudentCard_obj, hn1]
    simp only [hmarks, hroll2]
  · intro hm hs
    have : rows = [] := by
      have h := hmarks
      simp only [jsOr, hm, hs, Bool.false_eq_true, if_false, marksEntries, markRows] at h
      cases h
      rfl
    simp [this]
  · simp only [initialsOf_eq_specInitials]
  · intro hbmp
    simp only [initialsOf_eq_specInitials, specInitials]
    congr 1
    apply List.map_congr_left
    intro c hc
    simp [firstCodeUnit, hbmp c hc]

/-- Witness for C8 (amended): the record of Asha, whose initials are `A`
(code unit 65); a record with a three-word name and two spaces in a row,
whose initials are `AK` (code units 65 and 75); and a record whose name
starts outside the Basic Multilingual Plane, whose initials are the high
surrogate of its first character and the first character of its second
word. -/
theorem createStudentCard_fields_witness :
    (∃ card, createStudentCard asciiUpperCase
        (.obj [("name", .str "Asha"), ("roll_no", .str "12"),
               ("marks", .obj [("Math", .num 80 0), ("Eng", .num 35 0)])]) 0 = .ok card ∧
      card.name = "Asha" ∧ card.rollNo = "12" ∧ card.initials = [65]) ∧
    (∃ card, createStudentCard asciiUpperCase
        (.obj [("name", .str "asha  kumari devi"), ("id", .num 7 0)]) 3 = .ok card ∧
      card.name = "asha  kumari devi" ∧ card.rollNo = "7" ∧ card.initials = [65, 75] ∧
      card.marks = .noMarksData) ∧
    (∃ card, createStudentCard asciiUpperCase
        (.obj [("name", .str "𠮷田 太郎")]) 0 = .ok card ∧
      card.name = "𠮷田 太郎" ∧ card.rollNo = "N/A" ∧ card.initials = [0xD842, 0x592A]) := by
  refine ⟨?_, ?_, ?_⟩
  · obtain ⟨card, h1, h2, h3, _, h5, _⟩ := createStudentCard_fields asciiUpperCase
      [("name", .str "Asha"), ("roll_no", .str "12"),
       ("marks", .obj [("Math", .num 80 0), ("Eng", .num 35 0)])] 0 "12"
      (Or.inl ⟨"Asha", by decide⟩)
      (by
        intro entry h
        have e : marksEntries (jsOr (lookupProp "marks" [("name", JsVal.str "Asha"),
            ("roll_no", .str "12"), ("marks", .obj [("Math", .num 80 0), ("Eng", .num 35 0)])])
            (jsOr (lookupProp "subjects" [("name", JsVal.str "Asha"),
            ("roll_no", .str "12"), ("marks", .obj [("Math", .num 80 0), ("Eng", .num 35 0)])])
            (.obj []))) = [("Math", .num 80 0), ("Eng", .num 35 0)] := by decide
        rw [e] at h
        simp only [List.mem_cons, List.mem_singleton, List.not_mem_nil, or_false] at h
        rcases h with h | h <;> subst h <;> exact ⟨_, rfl⟩)
      (by decide)
    refine ⟨card, h1, h2, h3, ?_⟩
    rw [h5, h2]
    decide
  · obtain ⟨card, h1, h2, h3, h4, h5, _⟩ := createStudentCard_fields asciiUpperCase
      [("name", .str "asha  kumari devi"), ("id", .num 7 0)] 3 "7"
      (Or.inl ⟨"asha  kumari devi", by decide⟩)
      (by
        intro entry h
        have e : marksEntries (jsOr (lookupProp "marks" [("name", JsVal.str "asha  kumari devi"),
            ("id", .num 7 0)])
            (jsOr (lookupProp "subjects" [("name", JsVal.str "asha  kumari devi"),
            ("id", .num 7 0)]) (.obj []))) = [] := by decide
        rw [e] at h
        cases h)
      (by decide)
    refine ⟨card, h1, h2, h3, ?_, h4 (by decide) (by decide)⟩
    rw [h5, h2]
    decide
  · obtain ⟨card, h1, h2, h3, _, h5, _⟩ := createStudentCard_fields asciiUpperCase
      [("name", .str "𠮷田 太郎")] 0 "N/A"
      (Or.inl ⟨"𠮷田 太郎", by decide⟩)
      (by
        intro entry h
        have e : marksEntries (jsOr (lookupProp "marks" [("name", JsVal.str "𠮷田 太郎")])
            (jsOr (lookupProp "subjects" [("name", JsVal.str "𠮷田 太郎")]) (.obj []))) = [] := by
          decide
        rw [e] at h
        cases h)
      (by decide)
    refine ⟨card, h1, h2, h3, ?_⟩
    rw [h5, h2]
    decide
/-! ## Result rendering -/

theorem renderCards_ok (toUpperCase : List Nat → List Nat) :
    ∀ (xs : List JsVal) (i : Nat),
      (∀ k s, xs[k]? = some s → ∃ c, createStudentCard toUpperCase s (i + k) = .ok c) →
      ∃ cards, renderCards toUpperCase i xs = .ok cards ∧ cards.length = xs.length ∧
        ∀ k s, xs[k]? = some s →
          ∃ c, cards[k]? = some c ∧ createStudentCard toUpperCase s (i + k) = .ok c := by
  intro xs
  induction xs with
  | nil =>
    intro i _
    exact ⟨[], rfl, rfl, fun k s h => by simp at h⟩
  | cons x rest ih =>
    intro i h
    obtain ⟨c, hc⟩ := h 0 x (by simp)
    have hrest : ∀ k s, rest[k]? = some s →
        ∃ c, createStudentCard toUpperCase s (i + 1 + k) = .ok c := by
      intro k s hk
      have := h (k + 1) s (by simpa using hk)
      rwa [show i + (k + 1) = i + 1 + k by omega] at this
    obtain ⟨cs, hcs, hlen, hall⟩ := ih (i + 1) hrest
    refine ⟨c :: cs, ?_, by simp [hlen], ?_⟩
    · have hc0 : createStudentCard toUpperCase x i = .ok c := hc
      simp only [renderCards, hc0, hcs]
    · intro k s hk
      cases k with
      | zero =>
        simp only [List.getElem?_cons_zero, Option.some.injEq] at hk
        subst hk
        exact ⟨c, by simp, hc⟩
      | succ k =>
        have hk2 : rest[k]? = some s := by simpa using hk
        obtain ⟨c2, h1, h2⟩ := hall k s hk2
        refine ⟨c2, by simpa using h1, ?_⟩
        rwa [show i + (k + 1) = i + 1 + k by omega]

theorem studentsOf_eq_spec (data : JsVal)
    (hnull : data ≠ .null) (hundef : data ≠ .undefined)
    (htop : ∀ props, data = .obj props →
      (∃ xs, lookupProp "students" props = .arr xs) ∨
        truthy (lookupProp "students" props) = false)
    (hnested : ∀ props inner, data = .obj props →
      truthy (lookupProp "students" props) = false →
      lookupProp "data" props = .obj inner →
      (∃ xs, lookupProp "students" inner = .arr xs) ∨
        truthy (lookupProp "students" inner) = false) :
    studentsOf data = .ok (.arr (specStudentList data)) := by
  cases data with
  | undefined => exact absurd rfl hundef
  | null => exact absurd rfl hnull
  | bool b => simp [studentsOf, getProp, truthy, specStudentList, listField]
  | num m e => simp [studentsOf, getProp, truthy, specStudentList, listField]
  | infinity b => simp [studentsOf, getProp, truthy, specStudentList, listField]
  | str t => simp [studentsOf, getProp, truthy, specStudentList, listField]
  | arr xs => simp [studentsOf, getProp, truthy, specStudentList, listField]
  | obj props =>
    rcases htop props rfl with ⟨xs, hx⟩ | hf
    · simp [studentsOf, getProp, hx, truthy, specStudentList, listField]
    · have hnl : listField (.obj props) "students" = none := by
        simp only [listField]
        split
        · rename_i xs hx
          rw [hx] at hf
          simp [truthy] at hf
        · rfl
      simp only [studentsOf, getProp, hf, Bool.false_eq_true, if_false, specStudentList, hnl]
      cases hin : lookupProp "data" props with
      | obj inner =>
        rcases hnested props inner rfl hf hin with ⟨xs, hx⟩ | hf2
        · simp [listField, hx, truthy]
        · have hnl2 : listField (.obj inner) "students" = none := by
            simp only [listField]
            split
            · rename_i xs hx
              rw [hx] at hf2
              simp [truthy] at hf2
            · rfl
          simp [hnl2, hf2]
      | undefined => simp [listField, truthy]
      | null => simp [listField, truthy]
      | bool b => simp [listField, truthy]
      | num m e => simp [listField, truthy]
      | infinity b => simp [listField, truthy]
      | str t => simp [listField, truthy]
      | arr ys => simp [listField, truthy]

/-- C7 (counterexample): the payload is an array of two records with no
`students` list at either level; the claim derives the single-element list
holding the whole payload, that is one card, and `displayResults` renders
one card per element of the array. -/
theorem displayResults_array_payload_is_the_list :
    displayResults asciiUpperCase
        (.arr [.obj [("name", .str "Asha")], .obj [("name", .str "Ravi")]]) =
      .ok { grid := .cards
              [{ initials := [65], name := "Asha", rollNo := "N/A", marks := .noMarksData },
               { initials := [82], name := "Ravi", rollNo := "N/A", marks := .noMarksData }],
            jsonOutput := .arr [.obj [("name", .str "Asha")], .obj [("name", .str "Ravi")]] } := by
  decide

/-- C7 (amended): for a payload other than `null` whose consulted `students`
values are lists or falsy and whose derived students each render,
`displayResults` completes; the derived list is the top-level `students`
list when present, otherwise the `students` list under `data` when present,
otherwise the payload itself when it is an array and the payload as a
single-element list when it is not; one card is rendered per derived student,
in order, and the placeholder is shown exactly when the derived list is
empty. -/
theorem displayResults_derived_list (toUpperCase : List Nat → List Nat) (data : JsVal)
    (hnull : data ≠ .null) (hundef : data ≠ .undefined)
    (htop : ∀ props, data = .obj props →
      (∃ xs, lookupProp "students" props = .arr xs) ∨
        truthy (lookupProp "students" props) = false)
    (hnested : ∀ props inner, data = .obj props →
      truthy (lookupProp "students" props) = false →
      lookupProp "data" props = .obj inner →
      (∃ xs, lookupProp "students" inner = .arr xs) ∨
        truthy (lookupProp "students" inner) = false)
    (hrender : ∀ k s, (specStudentList data)[k]? = some s →
      ∃ c, createStudentCard toUpperCase s k = .ok c) :
    ∃ cards,
      displayResults toUpperCase data =
        .ok { grid := if (specStudentList data).isEmpty then .noStudentData else .cards cards,
              jsonOutput := data } ∧
      cards.length = (specStudentList data).length ∧
      (∀ k s, (specStudentList data)[k]? = some s →
        ∃ c, cards[k]? = some c ∧ createStudentCard toUpperCase s k = .ok c) ∧
      ((if (specStudentList data).isEmpty then Grid.noStudentData else Grid.cards cards)
          = Grid.noStudentData ↔ specStudentList data = []) := by
  have hs := studentsOf_eq_spec data hnull hundef htop hnested
  obtain ⟨cards, hc, hlen, hall⟩ := renderCards_ok toUpperCase (specStudentList data) 0
    (fun k s hk => by simpa using hrender k s hk)
  refine ⟨cards, ?_, hlen, fun k s hk => by simpa using hall k s hk, ?_⟩
  · cases hl : specStudentList data with
    | nil => simp [displayResults, hs, hl, truthy, lengthIsZero]
    | cons x rest =>
      rw [hl] at hc
      simp [displayResults, hs, hl, truthy, lengthIsZero, hc]
  · cases hl : specStudentList data with
    | nil => simp
    | cons x rest => simp

/-- Witness for C7 (amended): the payload with an empty `students` list under
`data` shows the placeholder. -/
theorem displayResults_derived_list_witness :
    displayResults asciiUpperCase (.obj [("data", .obj [("students", .arr [])])]) =
      .ok { grid := .noStudentData,
            jsonOutput := .obj [("data", .obj [("students", .arr [])])] } := by
  obtain ⟨cards, h, _⟩ := displayResults_derived_list asciiUpperCase
    (.obj [("data", .obj [("students", .arr [])])])
    (by decide) (by decide)
    (fun props hp => by
      cases hp
      exact Or.inr (by decide))
    (fun props inner hp _ hin => by
      cases hp
      have : inner = [("students", .arr [])] := by
        have h2 : lookupProp "data" [("data", JsVal.obj [("students", .arr [])])] =
            JsVal.obj [("students", .arr [])] := by decide
        rw [h2] at hin
        cases hin
        rfl
      subst this
      exact Or.inl ⟨[], by decide⟩)
    (fun k s hk => by
      have h2 : specStudentList (.obj [("data", .obj [("students", .arr [])])]) = [] := by
        decide
      rw [h2] at hk
      simp at hk)
  rw [h]
  rfl

/-! ## Export actions -/

/-- C9 (counterexample): with no result held, both export actions return the
page exactly as it was, so no notification is raised. -/
theorem export_without_result_is_silent :
    Ui.initial.extractedData = .null ∧
    copyToClipboard Ui.initial true = Ui.initial ∧
    (copyToClipboard Ui.initial true).toasts = [] ∧
    downloadJSON Ui.initial = Ui.initial ∧
    (downloadJSON Ui.initial).toasts = [] := by
  decide

/-- C9 (amended): whenever no extraction result is held (`extractedData` is
`null`, or any falsy value), `copyToClipboard` and `downloadJSON` leave the
whole page state unchanged: nothing is written to the clipboard, no download
is triggered, the held state is unchanged and no notification is raised. -/
theorem export_without_result_is_noop (st : Ui) (writeFulfilled : Bool)
    (h : truthy st.extractedData = false) :
    copyToClipboard st writeFulfilled = st ∧ downloadJSON st = st ∧
    (copyToClipboard st writeFulfilled).clipboardWrites = st.clipboardWrites ∧
    (downloadJSON st).downloads = st.downloads ∧
    (copyToClipboard st writeFulfilled).toasts = st.toasts ∧
    (downloadJSON st).toasts = st.toasts := by
  have h1 : copyToClipboard st writeFulfilled = st := by simp [copyToClipboard, h]
  have h2 : downloadJSON st = st := by simp [downloadJSON, h]
  rw [h1, h2]
  exact ⟨rfl, rfl, rfl, rfl, rfl, rfl⟩

/-- Witness for C9 (amended): the page as loaded holds no result. -/
theorem export_without_result_is_noop_witness :
    copyToClipboard Ui.initial true = Ui.initial ∧ downloadJSON Ui.initial = Ui.initial :=
  let h := export_without_result_is_noop Ui.initial true (by decide)
  ⟨h.1, h.2.1⟩

/-! ## Requests in flight -/

/-- C10 (failing input): select a file, start the extraction, remove the file
while the request is awaited, select another file, and click extract again.
The second selection re-enables the button, and two requests are in flight. -/
theorem second_extraction_starts_while_first_in_flight :
    (run asciiUpperCase Ui.initial
      [.select ⟨"a.png", "image/png", 100⟩, .extract, .clear,
       .select ⟨"b.png", "image/png", 200⟩]).inFlight = 1 ∧
    (run asciiUpperCase Ui.initial
      [.select ⟨"a.png", "image/png", 100⟩, .extract, .clear,
       .select ⟨"b.png", "image/png", 200⟩]).extractDisabled = false ∧
    (run asciiUpperCase Ui.initial
      [.select ⟨"a.png", "image/png", 100⟩, .extract, .clear,
       .select ⟨"b.png", "image/png", 200⟩, .extract]).inFlight = 2 ∧
    (run asciiUpperCase Ui.initial
      [.select ⟨"a.png", "image/png", 100⟩, .extract, .clear,
       .select ⟨"b.png", "image/png", 200⟩, .extract]).requests =
      [⟨"a.png", "image/png", 100⟩, ⟨"b.png", "image/png", 200⟩] := by
  decide

end DocExt
